import Mathlib

/-
Shallow embedding of the streamwatch-tool stream-trimming core
(src/common.rs and src/trim.rs of lieuwex/streamwatch-tool).

Modelling conventions:
- f32 values (marker start times, watch progress) are modelled as exact
  rationals; floating-point rounding is not modelled.
- Paths are a directory plus a final file-name component; the program only
  builds paths via FsPath::new(folder).join(filename) with separator-free
  catalog filenames, with_file_name and with_extension.
- The chrono Local time zone is an explicit parameter (Tz): a resolution
  function from civil time to an instant (epoch milliseconds) and the
  inverse civil-field view of an instant.
- External effects (process spawn, rename, unlink) are recorded in a trace;
  the sqlite catalog is a pure in-memory value and catalog statements are
  modelled as total updates (database I/O failures are not modelled).
- Rust panics (assert!, Option::unwrap, LocalResult::unwrap) are the fatal
  outcome; anyhow errors are the err outcome.
-/

/-- Precision of a parsed filename timestamp (enum DateType in common.rs). -/
inductive DateType where
  | Full : DateType
  | DateOnly : DateType
deriving DecidableEq

/-- Outcome of a fallible step: an ok value, a recoverable error
(Result::Err, propagated with ?), or a Rust panic which aborts the
whole process. -/
inductive Outcome (α : Type) where
  | ok : α → Outcome α
  | err : String → Outcome α
  | fatal : String → Outcome α
deriving DecidableEq

/-- Civil (naive) date-time with whole seconds, as chrono NaiveDateTime
restricted to what the filename parser can produce.  Second 60 stands for
a leap second, which chrono accepts when parsing with %S. -/
structure NaiveDT where
  year : Int
  month : Int
  day : Int
  hour : Int
  minute : Int
  second : Int
deriving DecidableEq

/-- Result of resolving a naive local date-time in a time zone
(chrono LocalResult): a unique instant, an ambiguous pair around a DST
fold, or no instant (a DST gap).  Instants are epoch milliseconds. -/
inductive LocalRes where
  | single : Int → LocalRes
  | ambiguous : Int → Int → LocalRes
  | missing : LocalRes
deriving DecidableEq

/-- Abstract model of the chrono Local time zone.  The system time zone is
external input to the program, so it is a parameter of the embedding. -/
structure Tz where
  fromLocal : NaiveDT → LocalRes
  toLocal : Int → NaiveDT

/-- File system path: a directory plus the final file-name component. -/
structure FsPath where
  dir : String
  name : String
deriving DecidableEq

/-- Contents of a file in the model: either an original file identified by a
tag, or the output that the external ffmpeg stream-copy produced from a
given source path at a given seek offset. -/
inductive FileData where
  | source : Nat → FileData
  | trimmed : FsPath → ℚ → FileData
deriving DecidableEq

/-- The file system is a finite map from paths to file data, as an
association list. -/
abbrev FS := List (FsPath × FileData)

def fsLookup (fs : FS) (p : FsPath) : Option FileData :=
  (fs.find? (fun e => decide (e.1 = p))).map (fun e => e.2)

def fsExists (fs : FS) (p : FsPath) : Bool :=
  (fsLookup fs p).isSome

def fsRemove (fs : FS) (p : FsPath) : FS :=
  fs.filter (fun e => !(decide (e.1 = p)))

def fsInsert (fs : FS) (p : FsPath) (d : FileData) : FS :=
  (p, d) :: fsRemove fs p

/-- External side effects actually performed by a run. -/
inductive Effect where
  | spawned : FsPath → FsPath → ℚ → Effect
  | renamed : FsPath → FsPath → Effect
  | removed : FsPath → Effect
deriving DecidableEq

/-- Row of the streams table, restricted to the columns trim_lw touches. -/
structure StreamRow where
  id : Int
  filename : String
  ts : Int
  duration : ℚ
deriving DecidableEq

/-- Row of the game_features table (marker events). -/
structure GameFeatureRow where
  stream_id : Int
  game_id : Int
  start_time : ℚ
deriving DecidableEq

/-- Row of the stream_progress table (watch progress). -/
structure ProgressRow where
  stream_id : Int
  time : ℚ
deriving DecidableEq

/-- The sqlite catalog state. -/
structure Catalog where
  streams : List StreamRow
  game_features : List GameFeatureRow
  stream_progress : List ProgressRow
deriving DecidableEq

/-- Whole-world state threaded through a run: file system, catalog, and the
trace of external effects performed so far. -/
structure World where
  fs : FS
  db : Catalog
  trace : List Effect
deriving DecidableEq

/-- Execution flags (struct Settings in common.rs).  The print method only
writes to stderr and is not modelled. -/
structure Settings where
  verbose : Bool
  dry_run : Bool

/-- Candidate row returned by the initial catalog query in trim_lw. -/
structure Cand where
  stream_id : Int
  filename : String
  start_time : ℚ
  count : Int
deriving DecidableEq

/- ----------------------------------------------------------------- -/
/- Filename timestamp parsing (common.rs parse_filename and the two    -/
/- anchored regular expressions).                                      -/
/- ----------------------------------------------------------------- -/

/-- Numeric value of a decimal digit character. -/
def toDigit (c : Char) : Nat := c.toNat - 48

/-- Decimal digit character for the last digit of a natural number. -/
def digCh (n : Nat) : Char := Char.ofNat (48 + n % 10)

def val2 (a b : Char) : Nat := 10 * toDigit a + toDigit b

def val4 (a b c d : Char) : Nat :=
  1000 * toDigit a + 100 * toDigit b + 10 * toDigit c + toDigit d

def pad2 (n : Int) : List Char := [digCh (n.toNat / 10), digCh n.toNat]

def pad4 (n : Int) : List Char :=
  [digCh (n.toNat / 1000), digCh (n.toNat / 100), digCh (n.toNat / 10), digCh n.toNat]

/-- The chars of a date-time rendered %Y-%m-%d %H:%M:%S (for years 0-9999). -/
def fmtFull (dt : NaiveDT) : List Char :=
  pad4 dt.year ++ '-' :: pad2 dt.month ++ '-' :: pad2 dt.day ++
    ' ' :: pad2 dt.hour ++ ':' :: pad2 dt.minute ++ ':' :: pad2 dt.second

/-- The chars of a date rendered %Y-%m-%d (for years 0-9999). -/
def fmtDate (y m d : Int) : List Char :=
  pad4 y ++ '-' :: pad2 m ++ '-' :: pad2 d

def fmtFullStr (dt : NaiveDT) : String := String.mk (fmtFull dt)

def fmtDateStr (dt : NaiveDT) : String := String.mk (fmtDate dt.year dt.month dt.day)

/-- One token of an anchored regular expression over chars: a decimal digit
class or a literal character. -/
inductive Tok where
  | dig : Tok
  | lit : Char → Tok

/-- Anchored matcher: matchToks toks s returns the matched prefix of s when
the token list matches at the start of s (models Regex::find with a
pattern anchored by a leading caret; mid-string matches never count). -/
def matchToks : List Tok → List Char → Option (List Char)
  | [], _ => some []
  | _ :: _, [] => none
  | Tok.dig :: ts, c :: cs =>
    if c.isDigit then (matchToks ts cs).map (fun m => c :: m) else none
  | Tok.lit l :: ts, c :: cs =>
    if c = l then (matchToks ts cs).map (fun m => c :: m) else none

/-- Tokens of FILE_STEM_REGEX_DATE, anchored regex for a YYYY-MM-DD prefix. -/
def dateToks : List Tok :=
  [Tok.dig, Tok.dig, Tok.dig, Tok.dig, Tok.lit '-', Tok.dig, Tok.dig,
   Tok.lit '-', Tok.dig, Tok.dig]

/-- Tokens of FILE_STEM_REGEX_DATETIME, anchored regex for a
YYYY-MM-DD HH:MM:SS prefix. -/
def dateTimeToks : List Tok :=
  dateToks ++
  [Tok.lit ' ', Tok.dig, Tok.dig, Tok.lit ':', Tok.dig, Tok.dig,
   Tok.lit ':', Tok.dig, Tok.dig]

def isLeapYear (y : Int) : Bool :=
  y % 4 = 0 && (!(y % 100 = 0) || y % 400 = 0)

def daysInMonth (y m : Int) : Int :=
  if m = 2 then (if isLeapYear y then 29 else 28)
  else if m = 4 ∨ m = 6 ∨ m = 9 ∨ m = 11 then 30
  else 31

/-- Validity of a civil date-time, exactly the range checks chrono performs
when parsing %Y-%m-%d %H:%M:%S (second 60 accepted as a leap second). -/
def dtValid (dt : NaiveDT) : Prop :=
  0 ≤ dt.year ∧ dt.year ≤ 9999 ∧ 1 ≤ dt.month ∧ dt.month ≤ 12 ∧
  1 ≤ dt.day ∧ dt.day ≤ daysInMonth dt.year dt.month ∧
  0 ≤ dt.hour ∧ dt.hour ≤ 23 ∧ 0 ≤ dt.minute ∧ dt.minute ≤ 59 ∧
  0 ≤ dt.second ∧ dt.second ≤ 60

instance (dt : NaiveDT) : Decidable (dtValid dt) := by
  unfold dtValid; infer_instance

/-- Validity of a civil date, the range checks chrono performs parsing
%Y-%m-%d. -/
def dateValid (y m d : Int) : Prop :=
  0 ≤ y ∧ y ≤ 9999 ∧ 1 ≤ m ∧ m ≤ 12 ∧ 1 ≤ d ∧ d ≤ daysInMonth y m

instance (y m d : Int) : Decidable (dateValid y m d) := by
  unfold dateValid; infer_instance

/-- Model of NaiveDateTime::parse_from_str with format %Y-%m-%d %H:%M:%S,
applied to the text matched by the date-time regex. -/
def parseNaiveDateTime : List Char → Option NaiveDT
  | [y1, y2, y3, y4, '-', m1, m2, '-', d1, d2, ' ',
     h1, h2, ':', n1, n2, ':', s1, s2] =>
    if y1.isDigit ∧ y2.isDigit ∧ y3.isDigit ∧ y4.isDigit ∧ m1.isDigit ∧
       m2.isDigit ∧ d1.isDigit ∧ d2.isDigit ∧ h1.isDigit ∧ h2.isDigit ∧
       n1.isDigit ∧ n2.isDigit ∧ s1.isDigit ∧ s2.isDigit then
      let dt : NaiveDT :=
        ⟨(val4 y1 y2 y3 y4 : Nat), (val2 m1 m2 : Nat), (val2 d1 d2 : Nat),
         (val2 h1 h2 : Nat), (val2 n1 n2 : Nat), (val2 s1 s2 : Nat)⟩
      if dtValid dt then some dt else none
    else none
  | _ => none

/-- Model of NaiveDate::parse_from_str with format %Y-%m-%d, applied to the
text matched by the date regex. -/
def parseNaiveDate : List Char → Option (Int × Int × Int)
  | [y1, y2, y3, y4, '-', m1, m2, '-', d1, d2] =>
    if y1.isDigit ∧ y2.isDigit ∧ y3.isDigit ∧ y4.isDigit ∧ m1.isDigit ∧
       m2.isDigit ∧ d1.isDigit ∧ d2.isDigit then
      let y : Int := (val4 y1 y2 y3 y4 : Nat)
      let m : Int := (val2 m1 m2 : Nat)
      let d : Int := (val2 d1 d2 : Nat)
      if dateValid y m d then some (y, m, d) else none
    else none
  | _ => none

/-- Model of NaiveDate::and_hms(0, 0, 0): local midnight of a date. -/
def andHms0 (y m d : Int) : NaiveDT := ⟨y, m, d, 0, 0, 0⟩

/-- Pure core of parse_filename: the regex-plus-parse cascade on the file
stem, before time-zone resolution.  Mirrors the find / parse_from_str
or_else chain of common.rs lines 24-33. -/
def parse_naive (stem : String) : Option (NaiveDT × DateType) :=
  match (matchToks dateTimeToks stem.data).bind parseNaiveDateTime with
  | some dt => some (dt, DateType.Full)
  | none =>
    match (matchToks dateToks stem.data).bind parseNaiveDate with
    | some (y, m, d) => some (andHms0 y m d, DateType.DateOnly)
    | none => none

/-- Split a character list at its first dot: the part before and the part
after.  None when there is no dot. -/
def splitFirstDot : List Char → Option (List Char × List Char)
  | [] => none
  | c :: cs =>
    if c = '.' then some ([], cs)
    else
      match splitFirstDot cs with
      | some (a, b) => some (c :: a, b)
      | none => none

/-- Split a character list at its last dot: the part before and the part
after.  None when there is no dot. -/
def splitLastDot : List Char → Option (List Char × List Char)
  | [] => none
  | c :: cs =>
    match splitLastDot cs with
    | some (a, b) => some (c :: a, b)
    | none => if c = '.' then some ([], cs) else none

/-- Rust FsPath::file_stem on our path shape: none when there is no final
component; otherwise the name up to its final dot, the whole name when
there is no dot or the only dot is leading. -/
def rustStem (name : String) : String :=
  match splitLastDot name.data with
  | none => name
  | some ([], _) => name
  | some (a, _) => String.mk a

def fileStem (p : FsPath) : Option String :=
  if p.name = "" then none else some (rustStem p.name)

def fileName (p : FsPath) : Option String :=
  if p.name = "" then none else some p.name

/-- Rust FsPath::with_extension with a non-empty extension: replace the
(final-dot) extension of the file name. -/
def withExtension (p : FsPath) (e : String) : FsPath :=
  ⟨p.dir, rustStem p.name ++ "." ++ e⟩

/-- Rust str::split_once at the first dot: the part before the first dot
and everything after it. -/
def splitOnceDot (s : String) : Option (String × String) :=
  match splitFirstDot s.data with
  | none => none
  | some (a, b) => some (String.mk a, String.mk b)

/-- Model of common.rs parse_filename: extract the file stem (unwrap), run
the regex cascade, then resolve the naive time in the local time zone with
LocalResult::unwrap, which panics on an ambiguous or missing local time. -/
def parse_filename (tz : Tz) (path : FsPath) : Outcome (Option (Int × DateType)) :=
  match fileStem path with
  | none => Outcome.fatal "file_stem unwrap failed"
  | some stem =>
    match parse_naive stem with
    | none => Outcome.ok none
    | some (n, typ) =>
      match tz.fromLocal n with
      | LocalRes.single t => Outcome.ok (some (t, typ))
      | LocalRes.ambiguous _ _ => Outcome.fatal "LocalResult unwrap: ambiguous local time"
      | LocalRes.missing => Outcome.fatal "LocalResult unwrap: no such local time"

/- ----------------------------------------------------------------- -/
/- Execution-policy-gated mutating operations (common.rs) and the      -/
/- external trim invoker (trim.rs ffmpeg_trim).                        -/
/- ----------------------------------------------------------------- -/

/-- Model of common.rs rename: described then skipped under dry-run,
otherwise the file is moved (overwriting any file at the target, as the
rename system call does); a missing source is an I/O error. -/
def rename (settings : Settings) (old new : FsPath) (w : World) :
    Outcome Unit × World :=
  if settings.dry_run then (Outcome.ok (), w)
  else
    match fsLookup w.fs old with
    | some d =>
      (Outcome.ok (),
       { w with fs := fsInsert (fsRemove w.fs old) new d,
                trace := w.trace ++ [Effect.renamed old new] })
    | none => (Outcome.err "rename: no such file", w)

/-- Model of common.rs remove_file: skipped under dry-run, otherwise the
file is unlinked; a missing file is an I/O error. -/
def remove_file (settings : Settings) (path : FsPath) (w : World) :
    Outcome Unit × World :=
  if settings.dry_run then (Outcome.ok (), w)
  else
    match fsLookup w.fs path with
    | some _ =>
      (Outcome.ok (),
       { w with fs := fsRemove w.fs path,
                trace := w.trace ++ [Effect.removed path] })
    | none => (Outcome.err "remove_file: no such file", w)

/-- Behaviour of the external ffmpeg invocation, a parameter of the
embedding: whether the spawned process succeeds for the given source,
destination and seek offset.  On success it writes the stream-copied
output at the destination; on failure (spawn error or non-zero exit) it
is modelled as leaving the file system unchanged. -/
abbrev FfmpegEnv := FsPath → FsPath → ℚ → Bool

/-- Model of trim.rs ffmpeg_trim: the command is described but never
spawned under dry-run; otherwise the process is spawned and a non-zero
exit status (exit_ok) or spawn failure is an error. -/
def ffmpeg_trim (env : FfmpegEnv) (settings : Settings)
    (old_path new_path : FsPath) (seconds : ℚ) (w : World) :
    Outcome Unit × World :=
  if settings.dry_run then (Outcome.ok (), w)
  else
    let w1 : World :=
      { w with trace := w.trace ++ [Effect.spawned old_path new_path seconds] }
    if env old_path new_path seconds then
      (Outcome.ok (),
       { w1 with fs := fsInsert w1.fs new_path (FileData.trimmed old_path seconds) })
    else (Outcome.err "ffmpeg exited with a failure status", w1)

/-- Rust numeric cast from f32 to i64 (value as exact rational): truncation
toward zero.  Saturation at the i64 range is not modelled. -/
def f32_as_i64 (q : ℚ) : Int :=
  if 0 ≤ q then q.floor else -((-q).floor)

/- ----------------------------------------------------------------- -/
/- Catalog statements issued by trim_lw, as pure updates.              -/
/- ----------------------------------------------------------------- -/

/-- DELETE FROM game_features WHERE stream_id = ? AND game_id = 7. -/
def deleteLW (db : Catalog) (sid : Int) : Catalog :=
  let gf := db.game_features.filter
    (fun g => !(decide (g.stream_id = sid) && decide (g.game_id = 7)))
  { db with game_features := gf }

/-- UPDATE game_features SET start_time = max(start_time - ?, 0)
WHERE stream_id = ?. -/
def decGameFeatures (db : Catalog) (sid : Int) (off : ℚ) : Catalog :=
  let gf := db.game_features.map
    (fun g => if g.stream_id = sid
              then { g with start_time := max (g.start_time - off) 0 }
              else g)
  { db with game_features := gf }

/-- UPDATE stream_progress SET time = max(time - ?, 0) WHERE stream_id = ?. -/
def decProgress (db : Catalog) (sid : Int) (off : ℚ) : Catalog :=
  let pr := db.stream_progress.map
    (fun r => if r.stream_id = sid
              then { r with time := max (r.time - off) 0 }
              else r)
  { db with stream_progress := pr }

/-- UPDATE streams SET filename = ?, ts = ?, duration = duration - ?
WHERE id = ?. -/
def updateStream (db : Catalog) (sid : Int) (fname : String) (ts : Int)
    (off : ℚ) : Catalog :=
  let st := db.streams.map
    (fun s => if s.id = sid
              then { s with filename := fname, ts := ts,
                            duration := s.duration - off }
              else s)
  { db with streams := st }

/-- Per-stream count of game_id-7 markers, the windowed count of the
candidate query. -/
def lwCount (db : Catalog) (sid : Int) : Int :=
  ((db.game_features.filter
      (fun g => decide (g.stream_id = sid) && decide (g.game_id = 7))).length : Int)

/-- The candidate query of trim_lw: streams joined to their game_id-7
marker events, each row carrying the per-stream marker count. -/
def selectCandidates (db : Catalog) : List Cand :=
  db.streams.flatMap (fun s =>
    (db.game_features.filter
        (fun g => decide (g.game_id = 7) && decide (g.stream_id = s.id))).map
      (fun g => ⟨s.id, s.filename, g.start_time, lwCount db s.id⟩))

/- ----------------------------------------------------------------- -/
/- The reconciliation driver (trim.rs trim_lw).                        -/
/- ----------------------------------------------------------------- -/

/-- Model of the map_path closure in trim_lw: take everything after the
first dot of the file name as the (possibly multi-part) extension
(split_once, unwrap panics when there is no dot or no file name), build
the sibling of old named new_file_base dot extension, and assert that it
does not already exist. -/
def map_path (fs : FS) (new_file_base : String) (old : FsPath) : Outcome FsPath :=
  match splitOnceDot old.name with
  | none => Outcome.fatal "split_once unwrap failed"
  | some (_, extension) =>
    let res : FsPath := ⟨old.dir, new_file_base ++ "." ++ extension⟩
    if fsExists fs res then Outcome.fatal "assertion failed: destination already exists"
    else Outcome.ok res

/-- Replace the message of an error outcome (anyhow Context::context). -/
def ctx (m : String) : Outcome Unit × World → Outcome Unit × World
  | (Outcome.err _, w) => (Outcome.err m, w)
  | r => r

/-- One iteration of the candidate loop of trim_lw (trim.rs lines 51-184),
for the candidate row (stream_id, filename, start_time, count). -/
def processCandidate (env : FfmpegEnv) (tz : Tz) (settings : Settings)
    (streams_folder : String) (c : Cand) (w : World) : Outcome Unit × World :=
  if c.count > 1 then (Outcome.ok (), w)
  else
    let start_time := c.start_time - 1
    if start_time < 0 then
      (Outcome.fatal "assertion failed: start_time is nonnegative", w)
    else
      let old_stream_path : FsPath := ⟨streams_folder, c.filename⟩
      if fsExists w.fs old_stream_path = false then
        (Outcome.fatal "assertion failed: old_stream_path exists", w)
      else
        let old_chat_path := withExtension old_stream_path "txt.zst"
        let old_yaml_path := withExtension old_stream_path "yaml"
        match parse_filename tz old_stream_path with
        | Outcome.fatal m => (Outcome.fatal m, w)
        | Outcome.err m => (Outcome.err m, w)
        | Outcome.ok none => (Outcome.ok (), w)
        | Outcome.ok (some (old_time, old_time_type)) =>
          let new_time := old_time + f32_as_i64 (start_time * 1000)
          let new_file_base :=
            match old_time_type with
            | DateType.Full => fmtFullStr (tz.toLocal new_time)
            | DateType.DateOnly => fmtDateStr (tz.toLocal new_time) ++ "_NEW"
          let rename_extra_files :=
            match old_time_type with
            | DateType.Full => true
            | DateType.DateOnly => false
          match map_path w.fs new_file_base old_stream_path with
          | Outcome.fatal m => (Outcome.fatal m, w)
          | Outcome.err m => (Outcome.err m, w)
          | Outcome.ok new_stream_path =>
          match map_path w.fs new_file_base old_chat_path with
          | Outcome.fatal m => (Outcome.fatal m, w)
          | Outcome.err m => (Outcome.err m, w)
          | Outcome.ok new_chat_path =>
          match map_path w.fs new_file_base old_yaml_path with
          | Outcome.fatal m => (Outcome.fatal m, w)
          | Outcome.err m => (Outcome.err m, w)
          | Outcome.ok new_yaml_path =>
          match ctx "Failed to trim the video file"
              (ffmpeg_trim env settings old_stream_path new_stream_path start_time w) with
          | (Outcome.err m, w1) => (Outcome.err m, w1)
          | (Outcome.fatal m, w1) => (Outcome.fatal m, w1)
          | (Outcome.ok _, w1) =>
          match (if fsExists w1.fs old_chat_path && rename_extra_files then
                   ctx "Failed to rename chat file"
                     (rename settings old_chat_path new_chat_path w1)
                 else (Outcome.ok (), w1)) with
          | (Outcome.err m, w2) => (Outcome.err m, w2)
          | (Outcome.fatal m, w2) => (Outcome.fatal m, w2)
          | (Outcome.ok _, w2) =>
          match (if fsExists w2.fs old_yaml_path && rename_extra_files then
                   ctx "Failed to rename yaml file"
                     (rename settings old_yaml_path new_yaml_path w2)
                 else (Outcome.ok (), w2)) with
          | (Outcome.err m, w3) => (Outcome.err m, w3)
          | (Outcome.fatal m, w3) => (Outcome.fatal m, w3)
          | (Outcome.ok _, w3) =>
          let db3 :=
            decProgress
              (decGameFeatures (deleteLW w3.db c.stream_id) c.stream_id start_time)
              c.stream_id start_time
          let w4 : World := { w3 with db := db3 }
          match old_time_type with
          | DateType.Full =>
            match fileName new_stream_path with
            | none => (Outcome.fatal "file_name unwrap failed", w4)
            | some new_stream_filename =>
              let timestamp := Int.fdiv new_time 1000
              let w5 : World :=
                { w4 with db :=
                    updateStream w4.db c.stream_id new_stream_filename timestamp start_time }
              ctx "Failed to remove old stream file"
                (remove_file settings old_stream_path w5)
          | DateType.DateOnly =>
            ctx "Failed to rename new stream file back to old name"
              (rename settings new_stream_path old_stream_path w4)

/-- The candidate loop of trim_lw: candidates are processed strictly in
order, stopping at the first error or panic. -/
def runCands (env : FfmpegEnv) (tz : Tz) (settings : Settings)
    (streams_folder : String) : List Cand → World → Outcome Unit × World
  | [], w => (Outcome.ok (), w)
  | c :: cs, w =>
    match processCandidate env tz settings streams_folder c w with
    | (Outcome.ok _, w1) => runCands env tz settings streams_folder cs w1
    | (Outcome.err m, w1) => (Outcome.err m, w1)
    | (Outcome.fatal m, w1) => (Outcome.fatal m, w1)

/-- Model of trim.rs trim_lw: query the candidates once from the catalog,
then run the per-candidate loop. -/
def trim_lw (env : FfmpegEnv) (tz : Tz) (settings : Settings)
    (streams_folder : String) (w : World) : Outcome Unit × World :=
  runCands env tz settings streams_folder (selectCandidates w.db) w

/- ----------------------------------------------------------------- -/
/- Concrete time zones used by witnesses and counterexamples.          -/
/- ----------------------------------------------------------------- -/

/-- Days since 1970-01-01 of a civil date (proleptic Gregorian). -/
def daysFromCivil (y m d : Int) : Int :=
  let y1 := if m ≤ 2 then y - 1 else y
  let era := Int.fdiv y1 400
  let yoe := y1 - era * 400
  let mp := Int.emod (m + 9) 12
  let doy := Int.fdiv (153 * mp + 2) 5 + d - 1
  let doe := yoe * 365 + Int.fdiv yoe 4 - Int.fdiv yoe 100 + doy
  era * 146097 + doe - 719468

/-- Civil date of a number of days since 1970-01-01. -/
def civilFromDays (z0 : Int) : Int × Int × Int :=
  let z := z0 + 719468
  let era := Int.fdiv z 146097
  let doe := z - era * 146097
  let yoe := Int.fdiv
    (doe - Int.fdiv doe 1460 + Int.fdiv doe 36524 - Int.fdiv doe 146096) 365
  let y := yoe + era * 400
  let doy := doe - (365 * yoe + Int.fdiv yoe 4 - Int.fdiv yoe 100)
  let mp := Int.fdiv (5 * doy + 2) 153
  let d := doy - Int.fdiv (153 * mp + 2) 5 + 1
  let m := mp + (if mp < 10 then 3 else -9)
  (if m ≤ 2 then y + 1 else y, m, d)

/-- Epoch milliseconds of a civil time read as UTC. -/
def epochMillis (n : NaiveDT) : Int :=
  (daysFromCivil n.year n.month n.day * 86400 +
   n.hour * 3600 + n.minute * 60 + n.second) * 1000

/-- A time zone with no DST: every civil time resolves uniquely (UTC). -/
def utcTz : Tz where
  fromLocal := fun n => LocalRes.single (epochMillis n)
  toLocal := fun t =>
    let secs := Int.fdiv t 1000
    let days := Int.fdiv secs 86400
    let sod := Int.emod secs 86400
    let c := civilFromDays days
    ⟨c.1, c.2.1, c.2.2, Int.fdiv sod 3600,
     Int.fdiv (Int.emod sod 3600) 60, Int.emod sod 60⟩

/-- A time zone sitting inside a DST fold: every civil time is ambiguous
between two instants, as chrono reports for the repeated hour of a
backward transition. -/
def foldTz : Tz where
  fromLocal := fun _ => LocalRes.ambiguous 0 3600000
  toLocal := utcTz.toLocal

/- ----------------------------------------------------------------- -/
/- Derived definitions used to state the claims.                       -/
/- ----------------------------------------------------------------- -/

/-- The new base name trim_lw computes for a candidate whose filename
parsed to the instant t0 with the given precision (trim.rs lines 82-88). -/
def newFileBase (tz : Tz) (t0 : Int) (typ : DateType) (c : Cand) : String :=
  match typ with
  | DateType.Full =>
    fmtFullStr (tz.toLocal (t0 + f32_as_i64 ((c.start_time - 1) * 1000)))
  | DateType.DateOnly =>
    fmtDateStr (tz.toLocal (t0 + f32_as_i64 ((c.start_time - 1) * 1000))) ++ "_NEW"

/-- Whether a character satisfies one regular-expression token. -/
def tokOK : Tok → Char → Bool
  | Tok.dig, c => c.isDigit
  | Tok.lit l, c => decide (c = l)

/-- Spec-side predicate, written from the specification words: the base
name starts with a well-formed YYYY-MM-DD HH:MM:SS timestamp. -/
def startsWithFullTimestamp (stem : String) : Prop :=
  ∃ dt rest, dtValid dt ∧ stem.data = fmtFull dt ++ rest

/-- Spec-side predicate, written from the specification words: the base
name starts with a well-formed YYYY-MM-DD date. -/
def startsWithDatePrefix (stem : String) : Prop :=
  ∃ y m d rest, dateValid y m d ∧ stem.data = fmtDate y m d ++ rest

/- ----------------------------------------------------------------- -/
/- Concrete sample runs for witnesses and counterexamples.             -/
/- ----------------------------------------------------------------- -/

/-- An ffmpeg environment in which every invocation succeeds. -/
def envAll : FfmpegEnv := fun _ _ _ => true

/-- An ffmpeg environment in which every invocation fails. -/
def envNone : FfmpegEnv := fun _ _ _ => false

/-- Catalog of the full-precision sample: stream 1 named
2024-01-01 10:00:00.mkv with one trim marker at 5.0 seconds and two
watch-progress rows. -/
def sampleDb : Catalog :=
  ⟨[⟨1, "2024-01-01 10:00:00.mkv", 1704103200, 3600⟩], [⟨1, 7, 5⟩], [⟨1, 100⟩, ⟨1, 3⟩]⟩

def sampleWorld : World :=
  ⟨[(⟨"streams", "2024-01-01 10:00:00.mkv"⟩, FileData.source 0)], sampleDb, []⟩

/-- The candidate row the query produces from sampleDb. -/
def sampleCand : Cand := ⟨1, "2024-01-01 10:00:00.mkv", 5, 1⟩

/-- Date-only sample: stream 2 named 2024-01-01.mkv with one trim marker
at 2.0 seconds and one watch-progress row at 0.5 seconds. -/
def dateOnlyDb : Catalog :=
  ⟨[⟨2, "2024-01-01.mkv", 1704067200, 3600⟩], [⟨2, 7, 2⟩], [⟨2, (1 : ℚ) / 2⟩]⟩

def dateOnlyWorld : World :=
  ⟨[(⟨"streams", "2024-01-01.mkv"⟩, FileData.source 1)], dateOnlyDb, []⟩

def dateOnlyCand : Cand := ⟨2, "2024-01-01.mkv", 2, 1⟩

/-- Candidate whose marker sits at 0.5 seconds, making the trim offset
negative. -/
def negCand : Cand := ⟨4, "2024-01-01.mkv", (1 : ℚ) / 2, 1⟩

/-- World in which the full-precision destination name already exists. -/
def collisionWorld : World :=
  ⟨[(⟨"streams", "2024-01-01 10:00:00.mkv"⟩, FileData.source 0),
    (⟨"streams", "2024-01-01 10:00:04.mkv"⟩, FileData.source 7)], sampleDb, []⟩

/-- Candidate whose filename has no dot at all. -/
def nodotCand : Cand := ⟨5, "2024-01-01 nodot", 2, 1⟩

def nodotWorld : World :=
  ⟨[(⟨"streams", "2024-01-01 nodot"⟩, FileData.source 2)],
   ⟨[⟨5, "2024-01-01 nodot", 0, 10⟩], [⟨5, 7, 2⟩], []⟩, []⟩

/-- Candidate with two trim markers (ambiguous trim point). -/
def manyCand : Cand := ⟨3, "2024-01-01.mkv", 2, 2⟩

/- ----------------------------------------------------------------- -/
/- Association-list file-system lemmas.                                -/
/- ----------------------------------------------------------------- -/

theorem fsLookup_cons (e : FsPath × FileData) (fs : FS) (q : FsPath) :
    fsLookup (e :: fs) q = if e.1 = q then some e.2 else fsLookup fs q := by
  by_cases h : e.1 = q <;> simp [fsLookup, List.find?, h]

theorem fsRemove_cons (e : FsPath × FileData) (fs : FS) (p : FsPath) :
    fsRemove (e :: fs) p = if e.1 = p then fsRemove fs p else e :: fsRemove fs p := by
  by_cases h : e.1 = p <;> simp [fsRemove, List.filter_cons, h]

theorem fsLookup_remove_ne (fs : FS) (p q : FsPath) (h : q ≠ p) :
    fsLookup (fsRemove fs p) q = fsLookup fs q := by
  induction fs with
  | nil => rfl
  | cons e fs ih =>
    rw [fsRemove_cons, fsLookup_cons]
    by_cases he : e.1 = p
    · have hq : ¬ (e.1 = q) := by
        intro hq
        exact h (hq ▸ he ▸ rfl)
      have hpq : ¬ (p = q) := fun x => h x.symm
      simp [he, hq, ih, hpq]
    · rw [if_neg he, fsLookup_cons]
      by_cases hq : e.1 = q <;> simp [hq, ih]

theorem fsLookup_remove_self (fs : FS) (p : FsPath) :
    fsLookup (fsRemove fs p) p = none := by
  induction fs with
  | nil => rfl
  | cons e fs ih =>
    rw [fsRemove_cons]
    by_cases he : e.1 = p
    · simp [he, ih]
    · rw [if_neg he, fsLookup_cons, if_neg he]
      exact ih

theorem fsLookup_insert_self (fs : FS) (p : FsPath) (d : FileData) :
    fsLookup (fsInsert fs p d) p = some d := by
  simp [fsInsert, fsLookup, List.find?]

theorem fsLookup_insert_ne (fs : FS) (p q : FsPath) (d : FileData) (h : q ≠ p) :
    fsLookup (fsInsert fs p d) q = fsLookup fs q := by
  rw [fsInsert, fsLookup_cons]
  have h1 : ¬ (p = q) := fun hq => h (hq ▸ rfl)
  rw [if_neg h1]
  exact fsLookup_remove_ne fs p q h

/- ----------------------------------------------------------------- -/
/- Dry-run gating of the three mutating primitives, and the frame      -/
/- property of a dry run.                                              -/
/- ----------------------------------------------------------------- -/

theorem ffmpeg_trim_dry (env : FfmpegEnv) (settings : Settings)
    (a b : FsPath) (q : ℚ) (w : World) (h : settings.dry_run = true) :
    ffmpeg_trim env settings a b q w = (Outcome.ok (), w) := by
  simp [ffmpeg_trim, h]

theorem rename_dry (settings : Settings) (a b : FsPath) (w : World)
    (h : settings.dry_run = true) :
    rename settings a b w = (Outcome.ok (), w) := by
  simp [rename, h]

theorem remove_file_dry (settings : Settings) (a : FsPath) (w : World)
    (h : settings.dry_run = true) :
    remove_file settings a w = (Outcome.ok (), w) := by
  simp [remove_file, h]

/-- Under dry-run a single candidate iteration leaves the file system and
the effect trace untouched (the catalog may still change). -/
theorem processCandidate_dry (env : FfmpegEnv) (tz : Tz) (settings : Settings)
    (folder : String) (c : Cand) (w : World) (h : settings.dry_run = true) :
    (processCandidate env tz settings folder c w).2.fs = w.fs ∧
    (processCandidate env tz settings folder c w).2.trace = w.trace := by
  unfold processCandidate
  simp only [ffmpeg_trim_dry env settings _ _ _ _ h, rename_dry settings _ _ _ h,
    remove_file_dry settings _ _ h, ctx, ite_self]
  repeat' split
  all_goals simp_all

/-- Under dry-run the whole candidate loop leaves the file system and the
effect trace untouched. -/
theorem runCands_dry (env : FfmpegEnv) (tz : Tz) (settings : Settings)
    (folder : String) (cs : List Cand) (w : World) (h : settings.dry_run = true) :
    (runCands env tz settings folder cs w).2.fs = w.fs ∧
    (runCands env tz settings folder cs w).2.trace = w.trace := by
  induction cs generalizing w with
  | nil => exact ⟨rfl, rfl⟩
  | cons c cs ih =>
    unfold runCands
    have hc := processCandidate_dry env tz settings folder c w h
    split
    · rename_i a w1 heq
      rw [heq] at hc
      have h2 := ih w1
      exact ⟨h2.1.trans hc.1, h2.2.trans hc.2⟩
    · rename_i m w1 heq
      rw [heq] at hc
      exact hc
    · rename_i m w1 heq
      rw [heq] at hc
      exact hc

/-- A map_path success certifies that the destination did not exist. -/
theorem map_path_ok_not_exists (fs : FS) (b : String) (old r : FsPath)
    (h : map_path fs b old = Outcome.ok r) : fsExists fs r = false := by
  simp only [map_path] at h
  split at h
  · exact absurd h (by simp)
  · split at h
    · exact absurd h (by simp)
    · rename_i hex
      cases h
      simpa using hex


/- Digit character arithmetic. -/

theorem charToNat_ofNat (n : Nat) (h : n < 55296) : (Char.ofNat n).toNat = n := by
  have hv : n.isValidChar := Or.inl h
  simp [Char.ofNat, hv, Char.toNat, Char.ofNatAux, UInt32.toNat, BitVec.toNat_ofNatLt]

theorem isDigit_bounds (c : Char) (h : c.isDigit = true) :
    48 ≤ c.toNat ∧ c.toNat ≤ 57 := by
  simp [Char.isDigit, Char.le_def] at h
  exact h

theorem isDigit_of_bounds (c : Char) (h1 : 48 ≤ c.toNat) (h2 : c.toNat ≤ 57) :
    c.isDigit = true := by
  simp [Char.isDigit, Char.le_def]
  exact ⟨h1, h2⟩

theorem toDigit_digCh (n : Nat) : toDigit (digCh n) = n % 10 := by
  unfold toDigit digCh
  rw [charToNat_ofNat _ (by omega)]
  omega

theorem isDigit_digCh (n : Nat) : (digCh n).isDigit = true := by
  apply isDigit_of_bounds
  · unfold digCh
    rw [charToNat_ofNat _ (by omega)]
    omega
  · unfold digCh
    rw [charToNat_ofNat _ (by omega)]
    omega

theorem digCh_congr (m n : Nat) (h : m % 10 = n % 10) : digCh m = digCh n := by
  unfold digCh
  rw [h]

theorem digCh_toDigit (c : Char) (h : c.isDigit = true) : digCh (toDigit c) = c := by
  have hb := isDigit_bounds c h
  unfold digCh toDigit
  have h1 : (c.toNat - 48) % 10 = c.toNat - 48 := by omega
  rw [h1]
  have h2 : 48 + (c.toNat - 48) = c.toNat := by omega
  rw [h2]
  exact Char.ofNat_toNat c

theorem toDigit_lt (c : Char) (h : c.isDigit = true) : toDigit c < 10 := by
  have hb := isDigit_bounds c h
  unfold toDigit
  omega

/- Two- and four-digit groups. -/

theorem val2_lt (a b : Char) (ha : a.isDigit = true) (hb : b.isDigit = true) :
    val2 a b < 100 := by
  have h1 := toDigit_lt a ha
  have h2 := toDigit_lt b hb
  unfold val2
  omega

theorem val4_lt (a b c d : Char) (ha : a.isDigit = true) (hb : b.isDigit = true)
    (hc : c.isDigit = true) (hd : d.isDigit = true) : val4 a b c d < 10000 := by
  have h1 := toDigit_lt a ha
  have h2 := toDigit_lt b hb
  have h3 := toDigit_lt c hc
  have h4 := toDigit_lt d hd
  unfold val4
  omega

theorem pad2_val2 (a b : Char) (ha : a.isDigit = true) (hb : b.isDigit = true) :
    pad2 ((val2 a b : Nat) : Int) = [a, b] := by
  have h1 := toDigit_lt a ha
  have h2 := toDigit_lt b hb
  unfold pad2
  rw [Int.toNat_natCast]
  have e1 : val2 a b / 10 = toDigit a := by
    unfold val2
    omega
  have e2 : val2 a b % 10 = toDigit b % 10 := by
    unfold val2
    omega
  rw [e1, digCh_toDigit a ha, digCh_congr _ _ e2, digCh_toDigit b hb]

theorem pad4_val4 (a b c d : Char) (ha : a.isDigit = true) (hb : b.isDigit = true)
    (hc : c.isDigit = true) (hd : d.isDigit = true) :
    pad4 ((val4 a b c d : Nat) : Int) = [a, b, c, d] := by
  have h1 := toDigit_lt a ha
  have h2 := toDigit_lt b hb
  have h3 := toDigit_lt c hc
  have h4 := toDigit_lt d hd
  unfold pad4
  rw [Int.toNat_natCast]
  have e1 : val4 a b c d / 1000 = toDigit a := by
    unfold val4
    omega
  have e2 : val4 a b c d / 100 % 10 = toDigit b % 10 := by
    unfold val4
    omega
  have e3 : val4 a b c d / 10 % 10 = toDigit c % 10 := by
    unfold val4
    omega
  have e4 : val4 a b c d % 10 = toDigit d % 10 := by
    unfold val4
    omega
  rw [e1, digCh_toDigit a ha, digCh_congr _ _ e2, digCh_toDigit b hb,
    digCh_congr _ _ e3, digCh_toDigit c hc, digCh_congr _ _ e4, digCh_toDigit d hd]

theorem val2_pad2 (n : Int) (h0 : 0 ≤ n) (h : n < 100) :
    ((val2 (digCh (n.toNat / 10)) (digCh n.toNat) : Nat) : Int) = n := by
  unfold val2
  rw [toDigit_digCh, toDigit_digCh]
  omega

theorem val4_pad4 (n : Int) (h0 : 0 ≤ n) (h : n < 10000) :
    ((val4 (digCh (n.toNat / 1000)) (digCh (n.toNat / 100)) (digCh (n.toNat / 10))
      (digCh n.toNat) : Nat) : Int) = n := by
  unfold val4
  rw [toDigit_digCh, toDigit_digCh, toDigit_digCh, toDigit_digCh]
  omega

/- Regex-matcher lemmas. -/

theorem matchToks_complete (toks : List Tok) (m : List Char)
    (h : List.Forall₂ (fun t c => tokOK t c = true) toks m) (rest : List Char) :
    matchToks toks (m ++ rest) = some m := by
  induction h with
  | nil => rfl
  | cons h1 h2 ih =>
    rename_i t c toks2 m2
    cases t with
    | dig =>
      simp only [tokOK] at h1
      simp [matchToks, h1, ih]
    | lit l =>
      simp only [tokOK, decide_eq_true_eq] at h1
      subst h1
      simp [matchToks, ih]

theorem matchToks_sound (toks : List Tok) : ∀ (s m : List Char),
    matchToks toks s = some m →
    List.Forall₂ (fun t c => tokOK t c = true) toks m ∧ ∃ rest, s = m ++ rest := by
  induction toks with
  | nil =>
    intro s m h
    simp only [matchToks] at h
    cases h
    exact ⟨List.Forall₂.nil, s, rfl⟩
  | cons t ts ih =>
    intro s m h
    cases s with
    | nil => simp [matchToks] at h
    | cons c cs =>
      cases t with
      | dig =>
        simp only [matchToks] at h
        split at h
        · rename_i hdig
          rcases Option.map_eq_some'.mp h with ⟨m2, hm2, rfl⟩
          obtain ⟨hf, rest, hrest⟩ := ih cs m2 hm2
          refine ⟨List.Forall₂.cons (by simpa [tokOK] using hdig) hf, rest, ?_⟩
          simp [hrest]
        · exact absurd h (by simp)
      | lit l =>
        simp only [matchToks] at h
        split at h
        · rename_i hlit
          rcases Option.map_eq_some'.mp h with ⟨m2, hm2, rfl⟩
          obtain ⟨hf, rest, hrest⟩ := ih cs m2 hm2
          refine ⟨List.Forall₂.cons (by simp [tokOK, hlit]) hf, rest, ?_⟩
          simp [hrest]
        · exact absurd h (by simp)

theorem fmtFull_shape (dt : NaiveDT) :
    List.Forall₂ (fun t c => tokOK t c = true) dateTimeToks (fmtFull dt) := by
  simp [dateTimeToks, dateToks, fmtFull, pad4, pad2, List.forall₂_cons, tokOK,
    isDigit_digCh]

theorem fmtDate_shape (y m d : Int) :
    List.Forall₂ (fun t c => tokOK t c = true) dateToks (fmtDate y m d) := by
  simp [dateToks, fmtDate, pad4, pad2, List.forall₂_cons, tokOK, isDigit_digCh]

/- Roundtrips between parsing and formatting. -/

theorem daysInMonth_le (y m : Int) : daysInMonth y m ≤ 31 := by
  unfold daysInMonth
  split
  · split <;> omega
  · split <;> omega

theorem parseNaiveDateTime_fmt (dt : NaiveDT) (h : dtValid dt) :
    parseNaiveDateTime (fmtFull dt) = some dt := by
  obtain ⟨h1, h2, h3, h4, h5, h6, h7, h8, h9, h10, h11, h12⟩ := h
  simp only [fmtFull, pad4, pad2, List.cons_append, List.nil_append]
  unfold parseNaiveDateTime
  simp only [isDigit_digCh]
  rw [if_pos (by simp [isDigit_digCh])]
  rw [val4_pad4 dt.year h1 (by omega), val2_pad2 dt.month (by omega) (by omega),
    val2_pad2 dt.day (by omega) (by have := daysInMonth_le dt.year dt.month; omega),
    val2_pad2 dt.hour (by omega) (by omega),
    val2_pad2 dt.minute (by omega) (by omega), val2_pad2 dt.second (by omega) (by omega)]
  have he : (⟨dt.year, dt.month, dt.day, dt.hour, dt.minute, dt.second⟩ : NaiveDT) = dt := rfl
  rw [he]
  rw [if_pos ⟨h1, h2, h3, h4, h5, h6, h7, h8, h9, h10, h11, h12⟩]

theorem parseNaiveDateTime_sound (m : List Char) (dt : NaiveDT)
    (h : parseNaiveDateTime m = some dt) : dtValid dt ∧ m = fmtFull dt := by
  unfold parseNaiveDateTime at h
  split at h
  case h_2 => exact absurd h (by simp)
  case h_1 y1 y2 y3 y4 m1 m2 d1 d2 a1 a2 n1 n2 s1 s2 =>
    split at h
    case isFalse => exact absurd h (by simp)
    case isTrue hd =>
      obtain ⟨hy1, hy2, hy3, hy4, hm1, hm2, hd1, hd2, ha1, ha2, hn1, hn2, hs1, hs2⟩ := hd
      simp only [] at h
      split at h
      case isFalse => exact absurd h (by simp)
      case isTrue hv =>
        cases h
        refine ⟨hv, ?_⟩
        simp only [fmtFull]
        rw [pad4_val4 y1 y2 y3 y4 hy1 hy2 hy3 hy4, pad2_val2 m1 m2 hm1 hm2,
          pad2_val2 d1 d2 hd1 hd2, pad2_val2 a1 a2 ha1 ha2,
          pad2_val2 n1 n2 hn1 hn2, pad2_val2 s1 s2 hs1 hs2]
        simp

theorem parseNaiveDate_fmt (y m d : Int) (h : dateValid y m d) :
    parseNaiveDate (fmtDate y m d) = some (y, m, d) := by
  obtain ⟨h1, h2, h3, h4, h5, h6⟩ := h
  simp only [fmtDate, pad4, pad2, List.cons_append, List.nil_append]
  unfold parseNaiveDate
  simp only [isDigit_digCh]
  rw [if_pos (by simp [isDigit_digCh])]
  rw [val4_pad4 y h1 (by omega), val2_pad2 m (by omega) (by omega),
    val2_pad2 d (by omega) (by have := daysInMonth_le y m; omega)]
  rw [if_pos ⟨h1, h2, h3, h4, h5, h6⟩]

theorem parseNaiveDate_sound (ch : List Char) (y m d : Int)
    (h : parseNaiveDate ch = some (y, m, d)) :
    dateValid y m d ∧ ch = fmtDate y m d := by
  unfold parseNaiveDate at h
  split at h
  case h_2 => exact absurd h (by simp)
  case h_1 y1 y2 y3 y4 m1 m2 d1 d2 =>
    split at h
    case isFalse => exact absurd h (by simp)
    case isTrue hd =>
      obtain ⟨hy1, hy2, hy3, hy4, hm1, hm2, hd1, hd2⟩ := hd
      simp only [] at h
      split at h
      case isFalse => exact absurd h (by simp)
      case isTrue hv =>
        cases h
        refine ⟨hv, ?_⟩
        simp only [fmtDate]
        rw [pad4_val4 y1 y2 y3 y4 hy1 hy2 hy3 hy4, pad2_val2 m1 m2 hm1 hm2,
          pad2_val2 d1 d2 hd1 hd2]
        simp

theorem parse_naive_full (stem : String) (dt : NaiveDT) (rest : List Char)
    (hv : dtValid dt) (hs : stem.data = fmtFull dt ++ rest) :
    parse_naive stem = some (dt, DateType.Full) := by
  unfold parse_naive
  rw [hs, matchToks_complete _ _ (fmtFull_shape dt) rest]
  simp [parseNaiveDateTime_fmt dt hv]

theorem parse_naive_dateonly (stem : String) (y m d : Int) (rest : List Char)
    (hv : dateValid y m d) (hs : stem.data = fmtDate y m d ++ rest)
    (hnf : ¬ startsWithFullTimestamp stem) :
    parse_naive stem = some (andHms0 y m d, DateType.DateOnly) := by
  unfold parse_naive
  cases hdt : (matchToks dateTimeToks stem.data).bind parseNaiveDateTime with
  | some dt2 =>
    exfalso
    rcases Option.bind_eq_some.mp hdt with ⟨mm, hmm, hp⟩
    obtain ⟨hval, hfm⟩ := parseNaiveDateTime_sound mm dt2 hp
    obtain ⟨-, ⟨rest2, hr⟩⟩ := matchToks_sound _ _ _ hmm
    exact hnf ⟨dt2, rest2, hval, by rw [hr, hfm]⟩
  | none =>
    rw [hs, matchToks_complete _ _ (fmtDate_shape y m d) rest]
    simp [parseNaiveDate_fmt y m d hv]

theorem parse_naive_none (stem : String)
    (hnf : ¬ startsWithFullTimestamp stem)
    (hnd : ¬ startsWithDatePrefix stem) :
    parse_naive stem = none := by
  unfold parse_naive
  cases hdt : (matchToks dateTimeToks stem.data).bind parseNaiveDateTime with
  | some dt2 =>
    exfalso
    rcases Option.bind_eq_some.mp hdt with ⟨mm, hmm, hp⟩
    obtain ⟨hval, hfm⟩ := parseNaiveDateTime_sound mm dt2 hp
    obtain ⟨-, ⟨rest2, hr⟩⟩ := matchToks_sound _ _ _ hmm
    exact hnf ⟨dt2, rest2, hval, by rw [hr, hfm]⟩
  | none =>
    cases hd2 : (matchToks dateToks stem.data).bind parseNaiveDate with
    | some t =>
      exfalso
      obtain ⟨y, m, d⟩ := t
      rcases Option.bind_eq_some.mp hd2 with ⟨mm, hmm, hp⟩
      obtain ⟨hval, hfm⟩ := parseNaiveDate_sound mm y m d hp
      obtain ⟨-, ⟨rest2, hr⟩⟩ := matchToks_sound _ _ _ hmm
      exact hnd ⟨y, m, d, rest2, hval, by rw [hr, hfm]⟩
    | none => rfl

/- Helper lemmas about map_path and single-candidate execution. -/

theorem map_path_ok_shape (fs : FS) (b : String) (old r : FsPath)
    (h : map_path fs b old = Outcome.ok r) :
    ∃ pre ext, splitOnceDot old.name = some (pre, ext) ∧
      r = ⟨old.dir, b ++ "." ++ ext⟩ := by
  simp only [map_path] at h
  split at h
  · exact absurd h (by simp)
  · rename_i pr pre ext heq
    split at h
    · exact absurd h (by simp)
    · cases h
      exact ⟨pre, ext, heq, rfl⟩

theorem map_path_ok_name_ne (fs : FS) (b : String) (old r : FsPath)
    (h : map_path fs b old = Outcome.ok r) : ¬ (r.name = "") := by
  obtain ⟨pre, ext, -, hr⟩ := map_path_ok_shape fs b old r h
  subst hr
  intro he
  have := congrArg String.length he
  simp [String.length_append] at this
  exact absurd this.1.2 (by decide)

theorem fsExists_eq_true_of_lookup (fs : FS) (p : FsPath) (d : FileData)
    (h : fsLookup fs p = some d) : fsExists fs p = true := by
  simp [fsExists, h]

theorem processCandidate_neg_offset (env : FfmpegEnv) (tz : Tz) (settings : Settings)
    (folder : String) (c : Cand) (w : World)
    (hcount : ¬ c.count > 1) (hneg : c.start_time - 1 < 0) :
    processCandidate env tz settings folder c w =
      (Outcome.fatal "assertion failed: start_time is nonnegative", w) := by
  unfold processCandidate
  rw [if_neg hcount, if_pos hneg]

theorem processCandidate_missing_source (env : FfmpegEnv) (tz : Tz) (settings : Settings)
    (folder : String) (c : Cand) (w : World)
    (hcount : ¬ c.count > 1) (hst : ¬ (c.start_time - 1 < 0))
    (hnoex : fsExists w.fs ⟨folder, c.filename⟩ = false) :
    processCandidate env tz settings folder c w =
      (Outcome.fatal "assertion failed: old_stream_path exists", w) := by
  unfold processCandidate
  rw [if_neg hcount, if_neg hst]
  simp only [hnoex, if_true]

theorem map_path_collision (fs : FS) (b : String) (old : FsPath) (pre ext : String)
    (hsplit : splitOnceDot old.name = some (pre, ext))
    (hex : fsExists fs ⟨old.dir, b ++ "." ++ ext⟩ = true) :
    map_path fs b old = Outcome.fatal "assertion failed: destination already exists" := by
  simp only [map_path, hsplit, hex, if_true]

theorem map_path_no_dot (fs : FS) (b : String) (old : FsPath)
    (hsplit : splitOnceDot old.name = none) :
    map_path fs b old = Outcome.fatal "split_once unwrap failed" := by
  simp only [map_path, hsplit]

theorem processCandidate_map_path_fatal_1 (env : FfmpegEnv) (tz : Tz)
    (settings : Settings) (folder : String) (c : Cand) (w : World)
    (t0 : Int) (typ : DateType) (m : String)
    (hcount : ¬ c.count > 1) (hst : ¬ (c.start_time - 1 < 0))
    (hex : fsExists w.fs ⟨folder, c.filename⟩ = true)
    (hparse : parse_filename tz ⟨folder, c.filename⟩ = Outcome.ok (some (t0, typ)))
    (hmf : map_path w.fs (newFileBase tz t0 typ c) ⟨folder, c.filename⟩ =
      Outcome.fatal m) :
    processCandidate env tz settings folder c w = (Outcome.fatal m, w) := by
  cases typ
  all_goals simp only [newFileBase] at hmf
  all_goals unfold processCandidate
  all_goals rw [if_neg hcount, if_neg hst]
  all_goals simp only [hex, Bool.true_eq_false, if_false, hparse, hmf]

theorem processCandidate_map_path_fatal_2 (env : FfmpegEnv) (tz : Tz)
    (settings : Settings) (folder : String) (c : Cand) (w : World)
    (t0 : Int) (typ : DateType) (p1 : FsPath) (m : String)
    (hcount : ¬ c.count > 1) (hst : ¬ (c.start_time - 1 < 0))
    (hex : fsExists w.fs ⟨folder, c.filename⟩ = true)
    (hparse : parse_filename tz ⟨folder, c.filename⟩ = Outcome.ok (some (t0, typ)))
    (hm1 : map_path w.fs (newFileBase tz t0 typ c) ⟨folder, c.filename⟩ =
      Outcome.ok p1)
    (hmf : map_path w.fs (newFileBase tz t0 typ c)
      (withExtension ⟨folder, c.filename⟩ "txt.zst") = Outcome.fatal m) :
    processCandidate env tz settings folder c w = (Outcome.fatal m, w) := by
  cases typ
  all_goals simp only [newFileBase] at hm1 hmf
  all_goals unfold processCandidate
  all_goals rw [if_neg hcount, if_neg hst]
  all_goals simp only [hex, Bool.true_eq_false, if_false, hparse, hm1, hmf]

theorem processCandidate_map_path_fatal_3 (env : FfmpegEnv) (tz : Tz)
    (settings : Settings) (folder : String) (c : Cand) (w : World)
    (t0 : Int) (typ : DateType) (p1 p2 : FsPath) (m : String)
    (hcount : ¬ c.count > 1) (hst : ¬ (c.start_time - 1 < 0))
    (hex : fsExists w.fs ⟨folder, c.filename⟩ = true)
    (hparse : parse_filename tz ⟨folder, c.filename⟩ = Outcome.ok (some (t0, typ)))
    (hm1 : map_path w.fs (newFileBase tz t0 typ c) ⟨folder, c.filename⟩ =
      Outcome.ok p1)
    (hm2 : map_path w.fs (newFileBase tz t0 typ c)
      (withExtension ⟨folder, c.filename⟩ "txt.zst") = Outcome.ok p2)
    (hmf : map_path w.fs (newFileBase tz t0 typ c)
      (withExtension ⟨folder, c.filename⟩ "yaml") = Outcome.fatal m) :
    processCandidate env tz settings folder c w = (Outcome.fatal m, w) := by
  cases typ
  all_goals simp only [newFileBase] at hm1 hm2 hmf
  all_goals unfold processCandidate
  all_goals rw [if_neg hcount, if_neg hst]
  all_goals simp only [hex, Bool.true_eq_false, if_false, hparse, hm1, hm2, hmf]

theorem runCands_fatal_head (env : FfmpegEnv) (tz : Tz) (settings : Settings)
    (folder : String) (c : Cand) (cs : List Cand) (w w1 : World) (m : String)
    (h : processCandidate env tz settings folder c w = (Outcome.fatal m, w1)) :
    runCands env tz settings folder (c :: cs) w = (Outcome.fatal m, w1) := by
  unfold runCands
  rw [h]

theorem runCands_err_head (env : FfmpegEnv) (tz : Tz) (settings : Settings)
    (folder : String) (c : Cand) (cs : List Cand) (w w1 : World) (m : String)
    (h : processCandidate env tz settings folder c w = (Outcome.err m, w1)) :
    runCands env tz settings folder (c :: cs) w = (Outcome.err m, w1) := by
  unfold runCands
  rw [h]


/- ----------------------------------------------------------------- -/
/- Claim theorems.                                                     -/
/- ----------------------------------------------------------------- -/

/-- C1 counterexample: the claim says that under dry-run the catalog state
is identical before and after the run.  It is not: catalog mutations in
trim_lw are not gated by dry_run, so a dry run on the full-precision
sample still deletes the trim marker and rewrites the stream row. -/
theorem C1_counterexample :
    (trim_lw envAll utcTz ⟨false, true⟩ "streams" sampleWorld).2.db ≠ sampleWorld.db := by
  with_unfolding_all decide

/-- C1 (amended): under dry-run no rename, no removal and no process spawn
occurs and the file system is identical before and after the run, for every
candidate list; the catalog, however, may still be mutated. -/
theorem C1_dry_run_filesystem_frame (env : FfmpegEnv) (tz : Tz)
    (settings : Settings) (folder : String) (w : World)
    (h : settings.dry_run = true) :
    (trim_lw env tz settings folder w).2.fs = w.fs ∧
    (trim_lw env tz settings folder w).2.trace = w.trace := by
  unfold trim_lw
  exact runCands_dry env tz settings folder (selectCandidates w.db) w h

/-- C1 witness: the filesystem frame theorem applied to the dry run of the
full-precision sample. -/
theorem C1_dry_run_filesystem_frame_witness :
    (trim_lw envAll utcTz ⟨false, true⟩ "streams" sampleWorld).2.fs = sampleWorld.fs ∧
    (trim_lw envAll utcTz ⟨false, true⟩ "streams" sampleWorld).2.trace = sampleWorld.trace :=
  C1_dry_run_filesystem_frame envAll utcTz ⟨false, true⟩ "streams" sampleWorld rfl

/-- C2: if the external trim invocation fails (non-zero exit or spawn
failure, env returning false) the candidate's reconciliation aborts with
an error, the catalog and the file system (in particular the source file)
are unchanged, and no later candidate is processed: no DELETE or UPDATE
runs after a failed trim. -/
theorem C2_failed_trim_aborts (env : FfmpegEnv) (tz : Tz)
    (settings : Settings) (folder : String) (c : Cand) (w : World)
    (t0 : Int) (typ : DateType) (p1 p2 p3 : FsPath)
    (hcount : ¬ c.count > 1)
    (hst : ¬ (c.start_time - 1 < 0))
    (hex : fsExists w.fs ⟨folder, c.filename⟩ = true)
    (hparse : parse_filename tz ⟨folder, c.filename⟩ = Outcome.ok (some (t0, typ)))
    (hm1 : map_path w.fs (newFileBase tz t0 typ c) ⟨folder, c.filename⟩ = Outcome.ok p1)
    (hm2 : map_path w.fs (newFileBase tz t0 typ c)
      (withExtension ⟨folder, c.filename⟩ "txt.zst") = Outcome.ok p2)
    (hm3 : map_path w.fs (newFileBase tz t0 typ c)
      (withExtension ⟨folder, c.filename⟩ "yaml") = Outcome.ok p3)
    (hdry : settings.dry_run = false)
    (henv : env ⟨folder, c.filename⟩ p1 (c.start_time - 1) = false) :
    (processCandidate env tz settings folder c w).1 =
      Outcome.err "Failed to trim the video file" ∧
    (processCandidate env tz settings folder c w).2.db = w.db ∧
    (processCandidate env tz settings folder c w).2.fs = w.fs ∧
    ∀ cs, runCands env tz settings folder (c :: cs) w =
      (Outcome.err "Failed to trim the video file",
       { w with trace := w.trace ++
           [Effect.spawned ⟨folder, c.filename⟩ p1 (c.start_time - 1)] }) := by
  have hmain : processCandidate env tz settings folder c w =
      (Outcome.err "Failed to trim the video file",
       { w with trace := w.trace ++
           [Effect.spawned ⟨folder, c.filename⟩ p1 (c.start_time - 1)] }) := by
    cases typ
    all_goals simp only [newFileBase] at hm1 hm2 hm3
    all_goals unfold processCandidate
    all_goals rw [if_neg hcount, if_neg hst]
    all_goals simp only [hex, Bool.true_eq_false, if_false, hparse, hm1, hm2, hm3]
    all_goals simp only [ffmpeg_trim, hdry, Bool.false_eq_true, if_false, henv, ctx]
  refine ⟨by rw [hmain], by rw [hmain], by rw [hmain], fun cs => ?_⟩
  exact runCands_err_head env tz settings folder c cs w _ _ hmain

set_option maxRecDepth 10000 in
/-- C2 witness: the failed-trim theorem applied to the full-precision
sample with an always-failing ffmpeg environment. -/
theorem C2_failed_trim_aborts_witness :
    (processCandidate envNone utcTz ⟨false, false⟩ "streams" sampleCand sampleWorld).1 =
      Outcome.err "Failed to trim the video file" ∧
    (processCandidate envNone utcTz ⟨false, false⟩ "streams" sampleCand sampleWorld).2.db =
      sampleWorld.db ∧
    (processCandidate envNone utcTz ⟨false, false⟩ "streams" sampleCand sampleWorld).2.fs =
      sampleWorld.fs ∧
    ∀ cs, runCands envNone utcTz ⟨false, false⟩ "streams" (sampleCand :: cs) sampleWorld =
      (Outcome.err "Failed to trim the video file",
       { sampleWorld with trace := sampleWorld.trace ++
           [Effect.spawned ⟨"streams", sampleCand.filename⟩
             ⟨"streams", "2024-01-01 10:00:04.mkv"⟩ (sampleCand.start_time - 1)] }) :=
  C2_failed_trim_aborts envNone utcTz ⟨false, false⟩ "streams" sampleCand sampleWorld
    1704103200000 DateType.Full
    ⟨"streams", "2024-01-01 10:00:04.mkv"⟩
    ⟨"streams", "2024-01-01 10:00:04.txt.zst"⟩
    ⟨"streams", "2024-01-01 10:00:04.yaml"⟩
    (by decide) (by with_unfolding_all decide) (by decide) (by decide)
    (by with_unfolding_all decide) (by with_unfolding_all decide)
    (by with_unfolding_all decide) rfl rfl

/- Helper facts about the prefix predicates. -/

theorem fmtFull_length (dt : NaiveDT) : (fmtFull dt).length = 19 := by
  simp [fmtFull, pad4, pad2]

theorem fmtDate_length (y m d : Int) : (fmtDate y m d).length = 10 := by
  simp [fmtDate, pad4, pad2]

theorem not_full_of_short (stem : String) (h : stem.data.length < 19) :
    ¬ startsWithFullTimestamp stem := by
  rintro ⟨dt, rest, -, hs⟩
  have := congrArg List.length hs
  rw [List.length_append, fmtFull_length] at this
  omega

theorem not_full_of_head (stem : String) (c : Char) (cs : List Char)
    (hdata : stem.data = c :: cs) (hc : c.isDigit = false) :
    ¬ startsWithFullTimestamp stem := by
  rintro ⟨dt, rest, -, hs⟩
  rw [hdata] at hs
  simp only [fmtFull, pad4, List.cons_append, List.cons.injEq] at hs
  have := isDigit_digCh (dt.year.toNat / 1000)
  rw [← hs.1, hc] at this
  exact Bool.noConfusion this

theorem not_date_of_head (stem : String) (c : Char) (cs : List Char)
    (hdata : stem.data = c :: cs) (hc : c.isDigit = false) :
    ¬ startsWithDatePrefix stem := by
  rintro ⟨y, m, d, rest, -, hs⟩
  rw [hdata] at hs
  simp only [fmtDate, pad4, List.cons_append, List.cons.injEq] at hs
  have := isDigit_digCh (y.toNat / 1000)
  rw [← hs.1, hc] at this
  exact Bool.noConfusion this

/-- C3: the filename timestamp parser, characterized against the spec-side
anchored-prefix predicates.  A base name starting with a well-formed
YYYY-MM-DD HH:MM:SS timestamp parses at Full precision to exactly that
local date-time; one starting only with a well-formed YYYY-MM-DD date
parses at DateOnly precision to local midnight of that date; when neither
anchored prefix is present the parser returns none (mid-string matches
never count, since both matchers are anchored at the start). -/
theorem C3_parser_characterization :
    (∀ (tz : Tz) (p : FsPath) (stem : String) (dt : NaiveDT) (rest : List Char) (t : Int),
      fileStem p = some stem → dtValid dt → stem.data = fmtFull dt ++ rest →
      tz.fromLocal dt = LocalRes.single t →
      parse_filename tz p = Outcome.ok (some (t, DateType.Full))) ∧
    (∀ (tz : Tz) (p : FsPath) (stem : String) (y m d : Int) (rest : List Char) (t : Int),
      fileStem p = some stem → dateValid y m d → stem.data = fmtDate y m d ++ rest →
      ¬ startsWithFullTimestamp stem →
      tz.fromLocal (andHms0 y m d) = LocalRes.single t →
      parse_filename tz p = Outcome.ok (some (t, DateType.DateOnly))) ∧
    (∀ (tz : Tz) (p : FsPath) (stem : String),
      fileStem p = some stem → ¬ startsWithFullTimestamp stem →
      ¬ startsWithDatePrefix stem →
      parse_filename tz p = Outcome.ok none) := by
  refine ⟨?_, ?_, ?_⟩
  · intro tz p stem dt rest t hstem hv hs ht
    simp only [parse_filename, hstem, parse_naive_full stem dt rest hv hs, ht]
  · intro tz p stem y m d rest t hstem hv hs hnf ht
    simp only [parse_filename, hstem, parse_naive_dateonly stem y m d rest hv hs hnf, ht]
  · intro tz p stem hstem hnf hnd
    simp only [parse_filename, hstem, parse_naive_none stem hnf hnd]

/-- C3 witness: the three parser cases at concrete file names, in a
DST-free time zone. -/
theorem C3_parser_characterization_witness :
    parse_filename utcTz ⟨"streams", "2024-01-01 10:00:00.mkv"⟩ =
      Outcome.ok (some (1704103200000, DateType.Full)) ∧
    parse_filename utcTz ⟨"streams", "2024-01-01.mkv"⟩ =
      Outcome.ok (some (1704067200000, DateType.DateOnly)) ∧
    parse_filename utcTz ⟨"streams", "notadate.mkv"⟩ = Outcome.ok none :=
  ⟨C3_parser_characterization.1 utcTz ⟨"streams", "2024-01-01 10:00:00.mkv"⟩
      "2024-01-01 10:00:00" ⟨2024, 1, 1, 10, 0, 0⟩ [] 1704103200000
      (by decide) (by decide) (by decide) (by decide),
   C3_parser_characterization.2.1 utcTz ⟨"streams", "2024-01-01.mkv"⟩
      "2024-01-01" 2024 1 1 [] 1704067200000
      (by decide) (by decide) (by decide)
      (not_full_of_short "2024-01-01" (by decide)) (by decide),
   C3_parser_characterization.2.2 utcTz ⟨"streams", "notadate.mkv"⟩ "notadate"
      (by decide)
      (not_full_of_head "notadate" 'n' "otadate".data (by decide) (by decide))
      (not_date_of_head "notadate" 'n' "otadate".data (by decide) (by decide))⟩

/-- C4 counterexample: the claim says timestamp construction never crashes
and returns some result on either side of a DST fold.  In a time zone
that reports the parsed civil time as ambiguous (a DST fold), the
LocalResult unwrap in parse_filename panics instead. -/
theorem C4_counterexample :
    (parse_naive "2024-10-27 02:30:00").isSome = true ∧
    parse_filename foldTz ⟨"streams", "2024-10-27 02:30:00.mkv"⟩ =
      Outcome.fatal "LocalResult unwrap: ambiguous local time" := by
  exact ⟨by decide, by decide⟩

/-- C4 (amended): for every parsed prefix the local-timestamp construction
is deterministic given the time zone, but it returns a result only when
the civil time resolves uniquely; on an ambiguous local time (DST fold)
or a nonexistent one (DST gap) the LocalResult unwrap panics, aborting
the whole run. -/
theorem C4_local_resolution (tz : Tz) (p : FsPath) (stem : String)
    (n : NaiveDT) (typ : DateType)
    (hstem : fileStem p = some stem)
    (hparse : parse_naive stem = some (n, typ)) :
    (∀ t, tz.fromLocal n = LocalRes.single t →
      parse_filename tz p = Outcome.ok (some (t, typ))) ∧
    (∀ a b, tz.fromLocal n = LocalRes.ambiguous a b →
      parse_filename tz p = Outcome.fatal "LocalResult unwrap: ambiguous local time") ∧
    (tz.fromLocal n = LocalRes.missing →
      parse_filename tz p = Outcome.fatal "LocalResult unwrap: no such local time") := by
  refine ⟨?_, ?_, ?_⟩
  · intro t ht
    simp only [parse_filename, hstem, hparse, ht]
  · intro a b ht
    simp only [parse_filename, hstem, hparse, ht]
  · intro ht
    simp only [parse_filename, hstem, hparse, ht]

/-- C4 witness: the amended resolution behaviour at a concrete filename,
in the DST-free zone and in the folded zone. -/
theorem C4_local_resolution_witness :
    parse_filename utcTz ⟨"streams", "2024-10-27 02:45:00.mkv"⟩ =
      Outcome.ok (some (1729997100000, DateType.Full)) ∧
    parse_filename foldTz ⟨"streams", "2024-10-27 02:45:00.mkv"⟩ =
      Outcome.fatal "LocalResult unwrap: ambiguous local time" :=
  ⟨(C4_local_resolution utcTz ⟨"streams", "2024-10-27 02:45:00.mkv"⟩
      "2024-10-27 02:45:00" ⟨2024, 10, 27, 2, 45, 0⟩ DateType.Full
      (by decide) (by decide)).1 1729997100000 (by decide),
   (C4_local_resolution foldTz ⟨"streams", "2024-10-27 02:45:00.mkv"⟩
      "2024-10-27 02:45:00" ⟨2024, 10, 27, 2, 45, 0⟩ DateType.Full
      (by decide) (by decide)).2.1 0 3600000 rfl⟩

/-- C5: a candidate whose per-stream trim-marker count exceeds one is
skipped: the iteration returns success and the world (file system,
catalog and effect trace) is exactly the input world, for every setting,
so dry-run and live runs leave identical state for such candidates. -/
theorem C5_ambiguous_marker_skip (env : FfmpegEnv) (tz : Tz)
    (settings : Settings) (folder : String) (c : Cand) (w : World)
    (h : c.count > 1) :
    processCandidate env tz settings folder c w = (Outcome.ok (), w) := by
  unfold processCandidate
  rw [if_pos h]

/-- C5 witness: the skip theorem at a concrete two-marker candidate under
live settings. -/
theorem C5_ambiguous_marker_skip_witness :
    processCandidate envAll utcTz ⟨false, false⟩ "streams" manyCand sampleWorld =
      (Outcome.ok (), sampleWorld) :=
  C5_ambiguous_marker_skip envAll utcTz ⟨false, false⟩ "streams" manyCand sampleWorld
    (by decide)

/-- C6: the two offset-decrement updates floor at zero: every affected
marker row is mapped to max(start_time - off, 0) and every affected
watch-progress row to max(time - off, 0); an offset smaller than the trim
offset becomes exactly 0, and no updated value is negative. -/
theorem C6_offset_floor (db : Catalog) (sid : Int) (off : ℚ) :
    (∀ g ∈ db.game_features, g.stream_id = sid →
      ({ g with start_time := max (g.start_time - off) 0 } : GameFeatureRow) ∈
        (decGameFeatures db sid off).game_features ∧
      (g.start_time < off → max (g.start_time - off) 0 = 0) ∧
      0 ≤ max (g.start_time - off) 0) ∧
    (∀ r ∈ db.stream_progress, r.stream_id = sid →
      ({ r with time := max (r.time - off) 0 } : ProgressRow) ∈
        (decProgress db sid off).stream_progress ∧
      (r.time < off → max (r.time - off) 0 = 0) ∧
      0 ≤ max (r.time - off) 0) := by
  constructor
  · intro g hg hsid
    refine ⟨?_, fun hlt => max_eq_right (by linarith), le_max_right _ _⟩
    have hm := List.mem_map_of_mem
      (fun g : GameFeatureRow => if g.stream_id = sid
        then { g with start_time := max (g.start_time - off) 0 } else g) hg
    simp only [hsid, eq_self_iff_true, if_true] at hm
    simpa [decGameFeatures, hsid] using hm
  · intro r hr hsid
    refine ⟨?_, fun hlt => max_eq_right (by linarith), le_max_right _ _⟩
    have hm := List.mem_map_of_mem
      (fun r : ProgressRow => if r.stream_id = sid
        then { r with time := max (r.time - off) 0 } else r) hr
    simp only [hsid, eq_self_iff_true, if_true] at hm
    simpa [decProgress, hsid] using hm

/-- C6 witness: the flooring update on the sample catalog, for the
progress row at 3 seconds with trim offset 4. -/
theorem C6_offset_floor_witness :
    ({ stream_id := 1, time := max ((3 : ℚ) - 4) 0 } : ProgressRow) ∈
      (decProgress sampleDb 1 4).stream_progress ∧
    ((3 : ℚ) < 4 → max ((3 : ℚ) - 4) 0 = 0) ∧
    0 ≤ max ((3 : ℚ) - 4) 0 :=
  (C6_offset_floor sampleDb 1 4).2 ⟨1, 3⟩ (by decide) (by decide)

/-- C7: a full-precision candidate that completes reconciliation ends with:
the trim offset is the marker start-time minus one second; the stream row
is updated to the new base name with the original (first-dot, multi-part)
extension preserved, to the integer-epoch timestamp of the new time, and
to the duration reduced by the trim offset; and the original source media
file is deleted from the file system. -/
theorem C7_full_precision_effects (env : FfmpegEnv) (tz : Tz)
    (settings : Settings) (folder : String) (c : Cand) (w : World)
    (t0 : Int) (d0 : FileData) (p1 p2 p3 : FsPath)
    (hcount : ¬ c.count > 1)
    (hst : ¬ (c.start_time - 1 < 0))
    (hd0 : fsLookup w.fs ⟨folder, c.filename⟩ = some d0)
    (hparse : parse_filename tz ⟨folder, c.filename⟩ =
      Outcome.ok (some (t0, DateType.Full)))
    (hm1 : map_path w.fs (newFileBase tz t0 DateType.Full c)
      ⟨folder, c.filename⟩ = Outcome.ok p1)
    (hm2 : map_path w.fs (newFileBase tz t0 DateType.Full c)
      (withExtension ⟨folder, c.filename⟩ "txt.zst") = Outcome.ok p2)
    (hm3 : map_path w.fs (newFileBase tz t0 DateType.Full c)
      (withExtension ⟨folder, c.filename⟩ "yaml") = Outcome.ok p3)
    (hdry : settings.dry_run = false)
    (henv : env ⟨folder, c.filename⟩ p1 (c.start_time - 1) = true)
    (hnechat : ¬ (withExtension ⟨folder, c.filename⟩ "txt.zst" =
      (⟨folder, c.filename⟩ : FsPath)))
    (hneyaml : ¬ (withExtension ⟨folder, c.filename⟩ "yaml" =
      (⟨folder, c.filename⟩ : FsPath))) :
    (processCandidate env tz settings folder c w).1 = Outcome.ok () ∧
    (processCandidate env tz settings folder c w).2.db =
      updateStream
        (decProgress
          (decGameFeatures (deleteLW w.db c.stream_id) c.stream_id (c.start_time - 1))
          c.stream_id (c.start_time - 1))
        c.stream_id p1.name
        (Int.fdiv (t0 + f32_as_i64 ((c.start_time - 1) * 1000)) 1000)
        (c.start_time - 1) ∧
    fsLookup (processCandidate env tz settings folder c w).2.fs
      ⟨folder, c.filename⟩ = none := by
  have hex : fsExists w.fs ⟨folder, c.filename⟩ = true :=
    fsExists_eq_true_of_lookup _ _ _ hd0
  have hne1 : ¬ ((⟨folder, c.filename⟩ : FsPath) = p1) := by
    intro he
    have h2 := map_path_ok_not_exists _ _ _ _ hm1
    rw [← he, hex] at h2
    exact Bool.noConfusion h2
  have hne2 : ¬ ((⟨folder, c.filename⟩ : FsPath) = p2) := by
    intro he
    have h2 := map_path_ok_not_exists _ _ _ _ hm2
    rw [← he, hex] at h2
    exact Bool.noConfusion h2
  have hne3 : ¬ ((⟨folder, c.filename⟩ : FsPath) = p3) := by
    intro he
    have h2 := map_path_ok_not_exists _ _ _ _ hm3
    rw [← he, hex] at h2
    exact Bool.noConfusion h2
  have hn1 : ¬ (p1.name = "") := map_path_ok_name_ne _ _ _ _ hm1
  simp only [newFileBase] at hm1 hm2 hm3
  unfold processCandidate
  rw [if_neg hcount, if_neg hst]
  simp only [hex, Bool.true_eq_false, if_false, hparse, hm1, hm2, hm3]
  simp only [ffmpeg_trim, hdry, Bool.false_eq_true, if_false, henv, if_true, ctx]
  have hd1 : fsLookup
      (fsInsert w.fs p1 (FileData.trimmed ⟨folder, c.filename⟩ (c.start_time - 1)))
      ⟨folder, c.filename⟩ = some d0 := by
    rw [fsLookup_insert_ne _ _ _ _ hne1]
    exact hd0
  have hp0chat : (⟨folder, c.filename⟩ : FsPath) ≠
      withExtension ⟨folder, c.filename⟩ "txt.zst" := fun h => hnechat h.symm
  have hp0yaml : (⟨folder, c.filename⟩ : FsPath) ≠
      withExtension ⟨folder, c.filename⟩ "yaml" := fun h => hneyaml h.symm
  cases hch : fsLookup
      (fsInsert w.fs p1 (FileData.trimmed ⟨folder, c.filename⟩ (c.start_time - 1)))
      (withExtension ⟨folder, c.filename⟩ "txt.zst") with
  | none =>
    simp only [fsExists, hch, Option.isSome_none, Bool.false_and, Bool.and_true,
      Bool.false_eq_true, if_false]
    cases hyl : fsLookup
        (fsInsert w.fs p1 (FileData.trimmed ⟨folder, c.filename⟩ (c.start_time - 1)))
        (withExtension ⟨folder, c.filename⟩ "yaml") with
    | none =>
      simp only [hyl, Option.isSome_none, Bool.false_eq_true, if_false]
      simp only [fileName, hn1, if_false, remove_file, hdry, Bool.false_eq_true, hd1]
      refine ⟨?_, ?_, ?_⟩ <;> first | trivial | exact fsLookup_remove_self _ _
    | some dyl =>
      have hd2 : fsLookup
          (fsInsert
            (fsRemove
              (fsInsert w.fs p1 (FileData.trimmed ⟨folder, c.filename⟩ (c.start_time - 1)))
              (withExtension ⟨folder, c.filename⟩ "yaml"))
            p3 dyl) ⟨folder, c.filename⟩ = some d0 := by
        rw [fsLookup_insert_ne _ _ _ _ hne3, fsLookup_remove_ne _ _ _ hp0yaml]
        exact hd1
      simp only [hyl, Option.isSome_some, if_true, rename, hdry, Bool.false_eq_true,
        if_false, ctx]
      simp only [fileName, hn1, if_false, remove_file, hdry, Bool.false_eq_true, hd2]
      refine ⟨?_, ?_, ?_⟩ <;> first | trivial | exact fsLookup_remove_self _ _
  | some dch =>
    have hd2 : fsLookup
        (fsInsert
          (fsRemove
            (fsInsert w.fs p1 (FileData.trimmed ⟨folder, c.filename⟩ (c.start_time - 1)))
            (withExtension ⟨folder, c.filename⟩ "txt.zst"))
          p2 dch) ⟨folder, c.filename⟩ = some d0 := by
      rw [fsLookup_insert_ne _ _ _ _ hne2, fsLookup_remove_ne _ _ _ hp0chat]
      exact hd1
    simp only [fsExists, hch, Option.isSome_some, Bool.true_and, Bool.and_true, if_true,
      rename, hdry, Bool.false_eq_true, if_false, ctx]
    cases hyl : fsLookup
        (fsInsert
          (fsRemove
            (fsInsert w.fs p1 (FileData.trimmed ⟨folder, c.filename⟩ (c.start_time - 1)))
            (withExtension ⟨folder, c.filename⟩ "txt.zst"))
          p2 dch)
        (withExtension ⟨folder, c.filename⟩ "yaml") with
    | none =>
      simp only [hyl, Option.isSome_none, Bool.false_eq_true, if_false]
      simp only [fileName, hn1, if_false, remove_file, hdry, Bool.false_eq_true, hd2]
      refine ⟨?_, ?_, ?_⟩ <;> first | trivial | exact fsLookup_remove_self _ _
    | some dyl =>
      have hd3 : fsLookup
          (fsInsert
            (fsRemove
              (fsInsert
                (fsRemove
                  (fsInsert w.fs p1
                    (FileData.trimmed ⟨folder, c.filename⟩ (c.start_time - 1)))
                  (withExtension ⟨folder, c.filename⟩ "txt.zst"))
                p2 dch)
              (withExtension ⟨folder, c.filename⟩ "yaml"))
            p3 dyl) ⟨folder, c.filename⟩ = some d0 := by
        rw [fsLookup_insert_ne _ _ _ _ hne3, fsLookup_remove_ne _ _ _ hp0yaml]
        exact hd2
      simp only [hyl, Option.isSome_some, if_true, rename, hdry, Bool.false_eq_true,
        if_false, ctx]
      simp only [fileName, hn1, if_false, remove_file, hdry, Bool.false_eq_true, hd3]
      refine ⟨?_, ?_, ?_⟩ <;> first | trivial | exact fsLookup_remove_self _ _

set_option maxRecDepth 10000 in
/-- C7 witness: the full-precision sample, live settings, succeeding
ffmpeg: stream row renamed to 2024-01-01 10:00:04.mkv with updated epoch
and reduced duration, and the old file deleted. -/
theorem C7_full_precision_effects_witness :
    (processCandidate envAll utcTz ⟨false, false⟩ "streams" sampleCand sampleWorld).1 =
      Outcome.ok () ∧
    (processCandidate envAll utcTz ⟨false, false⟩ "streams" sampleCand sampleWorld).2.db =
      updateStream
        (decProgress
          (decGameFeatures (deleteLW sampleWorld.db sampleCand.stream_id)
            sampleCand.stream_id (sampleCand.start_time - 1))
          sampleCand.stream_id (sampleCand.start_time - 1))
        sampleCand.stream_id (FsPath.mk "streams" "2024-01-01 10:00:04.mkv").name
        (Int.fdiv (1704103200000 + f32_as_i64 ((sampleCand.start_time - 1) * 1000)) 1000)
        (sampleCand.start_time - 1) ∧
    fsLookup (processCandidate envAll utcTz ⟨false, false⟩ "streams" sampleCand
      sampleWorld).2.fs ⟨"streams", sampleCand.filename⟩ = none :=
  C7_full_precision_effects envAll utcTz ⟨false, false⟩ "streams" sampleCand sampleWorld
    1704103200000 (FileData.source 0)
    ⟨"streams", "2024-01-01 10:00:04.mkv"⟩
    ⟨"streams", "2024-01-01 10:00:04.txt.zst"⟩
    ⟨"streams", "2024-01-01 10:00:04.yaml"⟩
    (by decide) (by with_unfolding_all decide) (by decide) (by decide)
    (by with_unfolding_all decide) (by with_unfolding_all decide)
    (by with_unfolding_all decide) rfl rfl (by decide) (by decide)

/-- C8: a date-only candidate that completes reconciliation leaves the
streams table untouched (filename, timestamp and duration unchanged), the
catalog changed only by marker deletion and the two offset decrements,
never renames the chat and metadata siblings, and renames the trimmed
file at its temporary _NEW path back onto the original source path. -/
theorem C8_date_only_effects (env : FfmpegEnv) (tz : Tz)
    (settings : Settings) (folder : String) (c : Cand) (w : World)
    (t0 : Int) (d0 : FileData) (p1 p2 p3 : FsPath)
    (hcount : ¬ c.count > 1)
    (hst : ¬ (c.start_time - 1 < 0))
    (hd0 : fsLookup w.fs ⟨folder, c.filename⟩ = some d0)
    (hparse : parse_filename tz ⟨folder, c.filename⟩ =
      Outcome.ok (some (t0, DateType.DateOnly)))
    (hm1 : map_path w.fs (newFileBase tz t0 DateType.DateOnly c)
      ⟨folder, c.filename⟩ = Outcome.ok p1)
    (hm2 : map_path w.fs (newFileBase tz t0 DateType.DateOnly c)
      (withExtension ⟨folder, c.filename⟩ "txt.zst") = Outcome.ok p2)
    (hm3 : map_path w.fs (newFileBase tz t0 DateType.DateOnly c)
      (withExtension ⟨folder, c.filename⟩ "yaml") = Outcome.ok p3)
    (hdry : settings.dry_run = false)
    (henv : env ⟨folder, c.filename⟩ p1 (c.start_time - 1) = true)
    (hnechat : ¬ (withExtension ⟨folder, c.filename⟩ "txt.zst" =
      (⟨folder, c.filename⟩ : FsPath)))
    (hneyaml : ¬ (withExtension ⟨folder, c.filename⟩ "yaml" =
      (⟨folder, c.filename⟩ : FsPath)))
    (hchp1 : ¬ (withExtension ⟨folder, c.filename⟩ "txt.zst" = p1))
    (hylp1 : ¬ (withExtension ⟨folder, c.filename⟩ "yaml" = p1)) :
    (processCandidate env tz settings folder c w).1 = Outcome.ok () ∧
    (processCandidate env tz settings folder c w).2.db =
      decProgress
        (decGameFeatures (deleteLW w.db c.stream_id) c.stream_id (c.start_time - 1))
        c.stream_id (c.start_time - 1) ∧
    (processCandidate env tz settings folder c w).2.db.streams = w.db.streams ∧
    fsLookup (processCandidate env tz settings folder c w).2.fs ⟨folder, c.filename⟩ =
      some (FileData.trimmed ⟨folder, c.filename⟩ (c.start_time - 1)) ∧
    fsLookup (processCandidate env tz settings folder c w).2.fs p1 = none ∧
    fsLookup (processCandidate env tz settings folder c w).2.fs
      (withExtension ⟨folder, c.filename⟩ "txt.zst") =
      fsLookup w.fs (withExtension ⟨folder, c.filename⟩ "txt.zst") ∧
    fsLookup (processCandidate env tz settings folder c w).2.fs
      (withExtension ⟨folder, c.filename⟩ "yaml") =
      fsLookup w.fs (withExtension ⟨folder, c.filename⟩ "yaml") := by
  have hex : fsExists w.fs ⟨folder, c.filename⟩ = true :=
    fsExists_eq_true_of_lookup _ _ _ hd0
  have hne1 : ¬ ((⟨folder, c.filename⟩ : FsPath) = p1) := by
    intro he
    have h2 := map_path_ok_not_exists _ _ _ _ hm1
    rw [← he, hex] at h2
    exact Bool.noConfusion h2
  have hp1ne0 : ¬ (p1 = (⟨folder, c.filename⟩ : FsPath)) := fun h => hne1 h.symm
  simp only [newFileBase] at hm1 hm2 hm3
  unfold processCandidate
  rw [if_neg hcount, if_neg hst]
  simp only [hex, Bool.true_eq_false, if_false, hparse, hm1, hm2, hm3]
  simp only [ffmpeg_trim, hdry, Bool.false_eq_true, if_false, henv, if_true, ctx]
  simp only [Bool.and_false, Bool.false_eq_true, if_false]
  have hlk1 : fsLookup
      (fsInsert w.fs p1 (FileData.trimmed ⟨folder, c.filename⟩ (c.start_time - 1))) p1 =
      some (FileData.trimmed ⟨folder, c.filename⟩ (c.start_time - 1)) :=
    fsLookup_insert_self _ _ _
  simp only [rename, hdry, Bool.false_eq_true, if_false, hlk1, ctx]
  refine ⟨trivial, trivial, ?_, ?_, ?_, ?_, ?_⟩
  · simp [decProgress, decGameFeatures, deleteLW]
  · exact fsLookup_insert_self _ _ _
  · rw [fsLookup_insert_ne _ _ _ _ hp1ne0]
    exact fsLookup_remove_self _ _
  · rw [fsLookup_insert_ne _ _ _ _ hnechat, fsLookup_remove_ne _ _ _ hchp1,
      fsLookup_insert_ne _ _ _ _ hchp1]
  · rw [fsLookup_insert_ne _ _ _ _ hneyaml, fsLookup_remove_ne _ _ _ hylp1,
      fsLookup_insert_ne _ _ _ _ hylp1]

set_option maxRecDepth 10000 in
/-- C8 witness: the date-only sample, live settings, succeeding ffmpeg:
streams table untouched, siblings untouched, trimmed file renamed back
onto 2024-01-01.mkv and the temporary _NEW path gone. -/
theorem C8_date_only_effects_witness :
    (processCandidate envAll utcTz ⟨false, false⟩ "streams" dateOnlyCand dateOnlyWorld).1 =
      Outcome.ok () ∧
    (processCandidate envAll utcTz ⟨false, false⟩ "streams" dateOnlyCand
      dateOnlyWorld).2.db =
      decProgress
        (decGameFeatures (deleteLW dateOnlyWorld.db dateOnlyCand.stream_id)
          dateOnlyCand.stream_id (dateOnlyCand.start_time - 1))
        dateOnlyCand.stream_id (dateOnlyCand.start_time - 1) ∧
    (processCandidate envAll utcTz ⟨false, false⟩ "streams" dateOnlyCand
      dateOnlyWorld).2.db.streams = dateOnlyWorld.db.streams ∧
    fsLookup (processCandidate envAll utcTz ⟨false, false⟩ "streams" dateOnlyCand
      dateOnlyWorld).2.fs ⟨"streams", dateOnlyCand.filename⟩ =
      some (FileData.trimmed ⟨"streams", dateOnlyCand.filename⟩
        (dateOnlyCand.start_time - 1)) ∧
    fsLookup (processCandidate envAll utcTz ⟨false, false⟩ "streams" dateOnlyCand
      dateOnlyWorld).2.fs ⟨"streams", "2024-01-01_NEW.mkv"⟩ = none ∧
    fsLookup (processCandidate envAll utcTz ⟨false, false⟩ "streams" dateOnlyCand
      dateOnlyWorld).2.fs (withExtension ⟨"streams", dateOnlyCand.filename⟩ "txt.zst") =
      fsLookup dateOnlyWorld.fs
        (withExtension ⟨"streams", dateOnlyCand.filename⟩ "txt.zst") ∧
    fsLookup (processCandidate envAll utcTz ⟨false, false⟩ "streams" dateOnlyCand
      dateOnlyWorld).2.fs (withExtension ⟨"streams", dateOnlyCand.filename⟩ "yaml") =
      fsLookup dateOnlyWorld.fs
        (withExtension ⟨"streams", dateOnlyCand.filename⟩ "yaml") :=
  C8_date_only_effects envAll utcTz ⟨false, false⟩ "streams" dateOnlyCand dateOnlyWorld
    1704067200000 (FileData.source 1)
    ⟨"streams", "2024-01-01_NEW.mkv"⟩
    ⟨"streams", "2024-01-01_NEW.txt.zst"⟩
    ⟨"streams", "2024-01-01_NEW.yaml"⟩
    (by decide) (by with_unfolding_all decide) (by decide) (by decide)
    (by with_unfolding_all decide) (by with_unfolding_all decide)
    (by with_unfolding_all decide) rfl rfl (by decide) (by decide)
    (by decide) (by decide)

/-- C9: each of the three data-integrity violations is fatal.  A negative
computed trim offset or a missing source file panics the iteration with
the world unchanged; a destination-path collision for the stream file or
either sibling panics with the world unchanged — in particular with an
unchanged effect trace, so no external tool was spawned before the
abort; and any fatal iteration outcome aborts the entire run at that
candidate. -/
theorem C9_integrity_violations :
    (∀ (env : FfmpegEnv) (tz : Tz) (settings : Settings) (folder : String)
       (c : Cand) (w : World), ¬ c.count > 1 → c.start_time - 1 < 0 →
      processCandidate env tz settings folder c w =
        (Outcome.fatal "assertion failed: start_time is nonnegative", w)) ∧
    (∀ (env : FfmpegEnv) (tz : Tz) (settings : Settings) (folder : String)
       (c : Cand) (w : World), ¬ c.count > 1 → ¬ (c.start_time - 1 < 0) →
      fsExists w.fs ⟨folder, c.filename⟩ = false →
      processCandidate env tz settings folder c w =
        (Outcome.fatal "assertion failed: old_stream_path exists", w)) ∧
    (∀ (env : FfmpegEnv) (tz : Tz) (settings : Settings) (folder : String)
       (c : Cand) (w : World) (t0 : Int) (typ : DateType) (pre ext : String),
      ¬ c.count > 1 → ¬ (c.start_time - 1 < 0) →
      fsExists w.fs ⟨folder, c.filename⟩ = true →
      parse_filename tz ⟨folder, c.filename⟩ = Outcome.ok (some (t0, typ)) →
      splitOnceDot c.filename = some (pre, ext) →
      fsExists w.fs ⟨folder, newFileBase tz t0 typ c ++ "." ++ ext⟩ = true →
      processCandidate env tz settings folder c w =
        (Outcome.fatal "assertion failed: destination already exists", w)) ∧
    (∀ (env : FfmpegEnv) (tz : Tz) (settings : Settings) (folder : String)
       (c : Cand) (w : World) (t0 : Int) (typ : DateType) (p1 : FsPath)
       (pre ext : String),
      ¬ c.count > 1 → ¬ (c.start_time - 1 < 0) →
      fsExists w.fs ⟨folder, c.filename⟩ = true →
      parse_filename tz ⟨folder, c.filename⟩ = Outcome.ok (some (t0, typ)) →
      map_path w.fs (newFileBase tz t0 typ c) ⟨folder, c.filename⟩ = Outcome.ok p1 →
      splitOnceDot (withExtension ⟨folder, c.filename⟩ "txt.zst").name =
        some (pre, ext) →
      fsExists w.fs ⟨folder, newFileBase tz t0 typ c ++ "." ++ ext⟩ = true →
      processCandidate env tz settings folder c w =
        (Outcome.fatal "assertion failed: destination already exists", w)) ∧
    (∀ (env : FfmpegEnv) (tz : Tz) (settings : Settings) (folder : String)
       (c : Cand) (w : World) (t0 : Int) (typ : DateType) (p1 p2 : FsPath)
       (pre ext : String),
      ¬ c.count > 1 → ¬ (c.start_time - 1 < 0) →
      fsExists w.fs ⟨folder, c.filename⟩ = true →
      parse_filename tz ⟨folder, c.filename⟩ = Outcome.ok (some (t0, typ)) →
      map_path w.fs (newFileBase tz t0 typ c) ⟨folder, c.filename⟩ = Outcome.ok p1 →
      map_path w.fs (newFileBase tz t0 typ c)
        (withExtension ⟨folder, c.filename⟩ "txt.zst") = Outcome.ok p2 →
      splitOnceDot (withExtension ⟨folder, c.filename⟩ "yaml").name =
        some (pre, ext) →
      fsExists w.fs ⟨folder, newFileBase tz t0 typ c ++ "." ++ ext⟩ = true →
      processCandidate env tz settings folder c w =
        (Outcome.fatal "assertion failed: destination already exists", w)) ∧
    (∀ (env : FfmpegEnv) (tz : Tz) (settings : Settings) (folder : String)
       (c : Cand) (cs : List Cand) (w w1 : World) (m : String),
      processCandidate env tz settings folder c w = (Outcome.fatal m, w1) →
      runCands env tz settings folder (c :: cs) w = (Outcome.fatal m, w1)) := by
  refine ⟨?_, ?_, ?_, ?_, ?_, ?_⟩
  · intro env tz settings folder c w hcount hneg
    exact processCandidate_neg_offset env tz settings folder c w hcount hneg
  · intro env tz settings folder c w hcount hst hnoex
    exact processCandidate_missing_source env tz settings folder c w hcount hst hnoex
  · intro env tz settings folder c w t0 typ pre ext hcount hst hex hparse hsplit hcol
    exact processCandidate_map_path_fatal_1 env tz settings folder c w t0 typ _
      hcount hst hex hparse
      (map_path_collision w.fs (newFileBase tz t0 typ c) ⟨folder, c.filename⟩
        pre ext hsplit hcol)
  · intro env tz settings folder c w t0 typ p1 pre ext hcount hst hex hparse hm1
      hsplit hcol
    exact processCandidate_map_path_fatal_2 env tz settings folder c w t0 typ p1 _
      hcount hst hex hparse hm1
      (map_path_collision w.fs (newFileBase tz t0 typ c)
        (withExtension ⟨folder, c.filename⟩ "txt.zst") pre ext hsplit hcol)
  · intro env tz settings folder c w t0 typ p1 p2 pre ext hcount hst hex hparse hm1
      hm2 hsplit hcol
    exact processCandidate_map_path_fatal_3 env tz settings folder c w t0 typ p1 p2 _
      hcount hst hex hparse hm1 hm2
      (map_path_collision w.fs (newFileBase tz t0 typ c)
        (withExtension ⟨folder, c.filename⟩ "yaml") pre ext hsplit hcol)
  · intro env tz settings folder c cs w w1 m h
    exact runCands_fatal_head env tz settings folder c cs w w1 m h

set_option maxRecDepth 10000 in
/-- C9 witness: a negative trim offset panics and aborts the run with the
world unchanged, and a pre-existing destination file panics before the
trace records any spawn. -/
theorem C9_integrity_violations_witness :
    processCandidate envAll utcTz ⟨false, false⟩ "streams" negCand dateOnlyWorld =
      (Outcome.fatal "assertion failed: start_time is nonnegative", dateOnlyWorld) ∧
    processCandidate envAll utcTz ⟨false, false⟩ "streams" sampleCand collisionWorld =
      (Outcome.fatal "assertion failed: destination already exists", collisionWorld) ∧
    runCands envAll utcTz ⟨false, false⟩ "streams" [negCand] dateOnlyWorld =
      (Outcome.fatal "assertion failed: start_time is nonnegative", dateOnlyWorld) := by
  have h1 := C9_integrity_violations.1 envAll utcTz ⟨false, false⟩ "streams" negCand
    dateOnlyWorld (by decide) (by with_unfolding_all decide)
  have h3 := C9_integrity_violations.2.2.1 envAll utcTz ⟨false, false⟩ "streams"
    sampleCand collisionWorld 1704103200000 DateType.Full
    "2024-01-01 10:00:00" "mkv"
    (by decide) (by with_unfolding_all decide) (by decide) (by decide) (by decide)
    (by with_unfolding_all decide)
  exact ⟨h1, h3,
    C9_integrity_violations.2.2.2.2.2 envAll utcTz ⟨false, false⟩ "streams" negCand []
      dateOnlyWorld dateOnlyWorld _ h1⟩

/-- C10: for a candidate that reaches the path-mapping step with a
filename containing no dot, the run panics (split_once unwrap) rather
than skipping the candidate or returning an error, and the whole run
aborts there; reconciliation is total only when every candidate filename
contains at least one dot. -/
theorem C10_no_dot_panics (env : FfmpegEnv) (tz : Tz) (settings : Settings)
    (folder : String) (c : Cand) (w : World) (t0 : Int) (typ : DateType)
    (hcount : ¬ c.count > 1) (hst : ¬ (c.start_time - 1 < 0))
    (hex : fsExists w.fs ⟨folder, c.filename⟩ = true)
    (hparse : parse_filename tz ⟨folder, c.filename⟩ = Outcome.ok (some (t0, typ)))
    (hnodot : splitOnceDot c.filename = none) :
    processCandidate env tz settings folder c w =
      (Outcome.fatal "split_once unwrap failed", w) ∧
    ∀ cs, runCands env tz settings folder (c :: cs) w =
      (Outcome.fatal "split_once unwrap failed", w) := by
  have hmain := processCandidate_map_path_fatal_1 env tz settings folder c w t0 typ _
    hcount hst hex hparse
    (map_path_no_dot w.fs (newFileBase tz t0 typ c) ⟨folder, c.filename⟩ hnodot)
  exact ⟨hmain, fun cs =>
    runCands_fatal_head env tz settings folder c cs w w _ hmain⟩

set_option maxRecDepth 10000 in
/-- C10 witness: the dot-free filename 2024-01-01 nodot parses at
date-only precision, then the path-mapping unwrap panics and the run
aborts with the world unchanged. -/
theorem C10_no_dot_panics_witness :
    processCandidate envAll utcTz ⟨false, false⟩ "streams" nodotCand nodotWorld =
      (Outcome.fatal "split_once unwrap failed", nodotWorld) ∧
    ∀ cs, runCands envAll utcTz ⟨false, false⟩ "streams" (nodotCand :: cs) nodotWorld =
      (Outcome.fatal "split_once unwrap failed", nodotWorld) :=
  C10_no_dot_panics envAll utcTz ⟨false, false⟩ "streams" nodotCand nodotWorld
    1704067200000 DateType.DateOnly
    (by decide) (by with_unfolding_all decide) (by decide) (by decide) (by decide)
